import Mathlib

/-!
Verification of the CanDraw sync/binding core: a shallow embedding of the
host-side state reconciliation (`page.tsx`), the canvas-side snapshot guards
(`ExcalidrawCanvas.tsx` and its fingerprinting revision), and the connector
snapping / deduplication engine, together with theorems settling the spec
claims about them.

Modelling conventions:
* Widget coordinates (JS floating-point numbers) are embedded as `ℚ`.
* JS `a || b` defaulting, which treats `0`, `""` and `undefined` as falsy,
  is embedded by the `jsOr*` helpers acting on `Option` values.
* Random draws (`Date.now()`, `Math.random()` ids) appear as explicit
  parameters of the functions that perform them.
* `versionNonce`, `seed` and purely stylistic fields (colors, stroke style,
  fonts, roundness) are not modelled: no reconciliation, snapping or binding
  decision in the source reads them.
* The source compares `Math.sqrt` of sums of squares; `sqrt` is strictly
  monotone on nonnegative reals, so comparing squared distances selects the
  same minimizer.  Distances are therefore kept squared (`dist2`).
-/

/-- A member of an element's `boundElements` array: `{ id, type }`. -/
structure BoundRef where
  id : String
  type : String
deriving DecidableEq

/-- A connector endpoint binding: `{ elementId, focus, gap }`. -/
structure Binding where
  elementId : String
  focus : ℚ
  gap : ℚ
deriving DecidableEq

/-- A canvas element, restricted to the fields the reconciliation, snapping
and binding logic reads (`id`, `type`, geometry, `points`, bindings,
`boundElements`, `version`, `isDeleted`). -/
structure Elt where
  id : String
  type : String
  x : ℚ
  y : ℚ
  width : ℚ
  height : ℚ
  points : Option (List (ℚ × ℚ))
  startBinding : Option Binding
  endBinding : Option Binding
  boundElements : Option (List BoundRef)
  version : Option Nat
  isDeleted : Bool
deriving DecidableEq

/-- JS `v || d` on a possibly-undefined number: `undefined` and `0` fall back. -/
def jsOrQ (v : Option ℚ) (d : ℚ) : ℚ :=
  match v with
  | none => d
  | some q => if q = 0 then d else q

/-- JS `v || d` on a possibly-undefined nonnegative integer. -/
def jsOrNat (v : Option Nat) (d : Nat) : Nat :=
  match v with
  | none => d
  | some 0 => d
  | some (n + 1) => n + 1

/-- JS `v || d` on a possibly-undefined string: `undefined` and `""` fall back. -/
def jsOrStr (v : Option String) (d : String) : String :=
  match v with
  | none => d
  | some s => if s = "" then d else s

/-- Whether the first list is an initial segment of the second. -/
def startsWithL : List Char → List Char → Bool
  | [], _ => true
  | _ :: _, [] => false
  | a :: as, b :: bs => a == b && startsWithL as bs

/-- JS `String.prototype.includes`: the needle occurs contiguously in the hay. -/
def containsSub : List Char → List Char → Bool
  | n, [] => n.isEmpty
  | n, c :: t => startsWithL n (c :: t) || containsSub n t

/-- A fixed element used to build concrete collections in witnesses. -/
def blankElt : Elt :=
  { id := "e", type := "rectangle", x := 0, y := 0, width := 10, height := 10,
    points := none, startBinding := none, endBinding := none,
    boundElements := none, version := some 1, isDeleted := false }

namespace HostSync

/-- Provenance test from `page.tsx` (`setValue`, Case 3): the last accepted
mutation counts as programmatic when its recorded source mentions
`programmatic` or `tool` (JS `String.prototype.includes`). -/
def isProgrammaticSource (s : String) : Bool :=
  containsSub "programmatic".data s.data || containsSub "tool".data s.data

/-- The host page's mutable context for `setValue`: the accepted collection
(React state `excalidrawElements`) and `lastUpdateRef`. -/
structure SyncState where
  elements : List Elt
  lastTimestamp : ℤ
  lastSource : String
  lastCount : Nat
deriving DecidableEq

/-- `page.tsx` `setValue` (the registered state setter): decides whether an
inbound collection replaces the accepted one.  Returns the new context and
whether the update was accepted (i.e. whether `setExcalidrawElements` ran). -/
def setValueStep (s : SyncState) (now : ℤ) (newValue : List Elt) : SyncState × Bool :=
  let newCount := newValue.length
  let currentCount := s.elements.length
  let timeSinceLastUpdate := now - s.lastTimestamp
  if newCount = 0 then
    ({ elements := newValue, lastTimestamp := now, lastSource := "clear",
       lastCount := newCount }, true)
  else if currentCount ≤ newCount then
    ({ elements := newValue, lastTimestamp := now, lastSource := "increase",
       lastCount := newCount }, true)
  else if timeSinceLastUpdate < 2000 ∧ ¬ (5 < currentCount - newCount) then
    ({ elements := newValue, lastTimestamp := now, lastSource := "minor_reduction",
       lastCount := newCount }, true)
  else if isProgrammaticSource s.lastSource = true ∧ timeSinceLastUpdate < 2000 then
    ({ elements := newValue, lastTimestamp := now, lastSource := "programmatic_sequence",
       lastCount := newCount }, true)
  else
    (s, false)

end HostSync

namespace NuclearCanvas

/-- The refs of `ExcalidrawCanvas.tsx`: mount-grace flag, push-echo flag,
element cache, last valid count, previous host count, and whether the
imperative canvas API is available. -/
structure CState where
  ignoreFirstEmpty : Bool
  pushing : Bool
  cache : List Elt
  lastValidCount : Nat
  prevElementCount : Nat
  apiReady : Bool
deriving DecidableEq

/-- Outcome of one `handleChange` call. -/
inductive HCResult
  | graceSwallow
  | pushEcho
  | cacheRestore (els : List Elt)
  | propagate (els : List Elt)
deriving DecidableEq

/-- `ExcalidrawCanvas.tsx` `handleChange`: the surface's `onChange` callback.
`cacheRestore els` means `onElementsChange` was called with the cached
elements instead of the incoming snapshot; `propagate els` means the
snapshot was forwarded to the host. -/
def handleChange (s : CState) (newEls : List Elt) : CState × HCResult :=
  if s.ignoreFirstEmpty = true ∧ newEls.length = 0 then (s, .graceSwallow)
  else if s.pushing = true then (s, .pushEcho)
  else if newEls.length < s.lastValidCount ∧ 0 < s.lastValidCount ∧
      newEls.length < s.cache.length then
    (s, .cacheRestore s.cache)
  else if s.lastValidCount < newEls.length then
    ({ s with cache := newEls, lastValidCount := newEls.length }, .propagate newEls)
  else
    (s, .propagate newEls)

/-- `ExcalidrawCanvas.tsx` push effect: guards against an external reset,
updates the cache, records the previous count, and (when the API is ready)
sets the `pushing` flag around `updateScene`. -/
def hostEffect (s : CState) (elements : List Elt) : CState :=
  let prevCount := s.prevElementCount
  let currentCount := elements.length
  let cachedCount := s.cache.length
  if currentCount < prevCount ∧ 0 < prevCount ∧ currentCount < cachedCount ∧
      cachedCount = prevCount then
    s
  else
    let s1 := if cachedCount < currentCount then
        { s with cache := elements, lastValidCount := currentCount }
      else s
    let s2 := { s1 with prevElementCount := currentCount }
    if s2.apiReady = true then { s2 with pushing := true } else s2

/-- The `queueMicrotask` scheduled after `updateScene`: clears the push-echo
flag and permanently disables the mount-grace rule. -/
def microtask (s : CState) : CState :=
  { s with pushing := false, ignoreFirstEmpty := false }

/-- The events that can reach the canvas component's state. -/
inductive Ev
  | change (els : List Elt)
  | host (els : List Elt)
  | tick

/-- One transition of the canvas component's ref state. -/
def step (s : CState) (e : Ev) : CState :=
  match e with
  | .change els => (handleChange s els).1
  | .host els => hostEffect s els
  | .tick => microtask s

/-- The ref state at mount: grace flag set, nothing pushed, empty cache. -/
def initState : CState :=
  { ignoreFirstEmpty := true, pushing := false, cache := [],
    lastValidCount := 0, prevElementCount := 0, apiReady := false }

end NuclearCanvas

namespace HashCanvas

/-- `getElementsHash` from the fingerprinting revision of the canvas
component: per-element `id:type:x:y:version` tuples joined by `|`,
with `version || 0` defaulting. -/
def getElementsHash (elements : List Elt) : String :=
  String.intercalate "|" (elements.map (fun el =>
    el.id ++ ":" ++ el.type ++ ":" ++ toString el.x ++ ":" ++ toString el.y ++ ":" ++
      toString (jsOrNat el.version 0)))

/-- The refs of the fingerprinting canvas revision. -/
structure FPState where
  lastPushedHash : String
  lastReceivedHash : String
  lastReceivedElements : List Elt
  ignoreFirstEmpty : Bool
  isUpdating : Bool
deriving DecidableEq

/-- Outcome of one fingerprinting `handleChange` call. -/
inductive FPResult
  | firstEmptySwallow
  | dropSameAsPushed
  | dropSameAsReceived
  | dropUpdateInProgress
  | propagate (els : List Elt)
deriving DecidableEq

/-- `handleChange` from the fingerprinting canvas revision: swallows the
first empty snapshot, drops a snapshot whose fingerprint matches the last
pushed or last received hash, drops while an update is in flight, and
otherwise records and propagates the snapshot. -/
def handleChange (s : FPState) (newEls : List Elt) : FPState × FPResult :=
  if s.ignoreFirstEmpty = true ∧ newEls.length = 0 then (s, .firstEmptySwallow)
  else
    let s1 := { s with ignoreFirstEmpty := false }
    let newHash := getElementsHash newEls
    if newHash = s.lastPushedHash then (s1, .dropSameAsPushed)
    else if newHash = s.lastReceivedHash then (s1, .dropSameAsReceived)
    else if s.isUpdating = true then (s1, .dropUpdateInProgress)
    else ({ s1 with lastReceivedElements := newEls, lastReceivedHash := newHash },
      .propagate newEls)

/-- Whether a `handleChange` outcome forwarded the snapshot to the host. -/
def propagates : FPResult → Bool
  | .propagate _ => true
  | _ => false

end HashCanvas

/-- JS `String.prototype.endsWith`, computed over the character lists. -/
def strEndsWith (s suffixStr : String) : Bool :=
  suffixStr.data.length ≤ s.data.length &&
    s.data.drop (s.data.length - suffixStr.data.length) == suffixStr.data

namespace SnapEngine

/-- Squared Euclidean distance.  The source compares `Math.sqrt` of this
quantity; comparing the squares selects the same minimizer. -/
def dist2 (p q : ℚ × ℚ) : ℚ :=
  (p.1 - q.1) ^ 2 + (p.2 - q.2) ^ 2

/-- The strict-minimum accumulator loop shared by `findClosestRectangle`
(`closestRect`/`closestDistance`) and the shortest-edge search
(`bestStartEdge`/`shortestDistance`): the running best is replaced only on
a strictly smaller cost, so the first minimum in iteration order wins. -/
def minFoldGo {α : Type} (f : α → ℚ) : α × ℚ → List α → α × ℚ
  | best, [] => best
  | best, r :: t => if f r < best.2 then minFoldGo f (r, f r) t else minFoldGo f best t

/-- Running the strict-minimum loop from an `Infinity` sentinel: the first
element always replaces the sentinel, so the scan starts at the head. -/
def minFold {α : Type} (f : α → ℚ) : List α → Option (α × ℚ)
  | [] => none
  | r :: t => some (minFoldGo f (r, f r) t)

/-- Center of a rectangle element. -/
def rectCenter (rect : Elt) : ℚ × ℚ :=
  (rect.x + rect.width / 2, rect.y + rect.height / 2)

/-- `findClosestRectangle` from the snapping effect: scan the rectangle list
for the box whose center is closest to the point, skipping the optional
excluded rectangle (the `continue` is rendered as a filter). -/
def findClosestRectangle (rectangles : List Elt) (x y : ℚ) (excludeRect : Option Elt) :
    Option Elt :=
  let cands := rectangles.filter (fun rect =>
    match excludeRect with
    | some ex => !(rect.id == ex.id)
    | none => true)
  match minFold (fun rect => dist2 (x, y) (rectCenter rect)) cands with
  | some (rect, _) => some rect
  | none => none

/-- `getAllEdgePoints`: the four cardinal edge midpoints of a rectangle, in
the iteration order left, right, top, bottom. -/
def getAllEdgePoints (rect : Elt) : List (ℚ × ℚ) :=
  let centerX := rect.x + rect.width / 2
  let centerY := rect.y + rect.height / 2
  [(rect.x, centerY), (rect.x + rect.width, centerY),
   (centerX, rect.y), (centerX, rect.y + rect.height)]

/-- The 4×4 shortest-edge search of the snapping effect: all pairings of the
two boxes edge midpoints, scanned by the strict-minimum loop.  An empty
pairing list is impossible here; the fallback mirrors the initialisation
with the first (left) edges. -/
def chooseShortestEdges (startRect endRect : Elt) : (ℚ × ℚ) × (ℚ × ℚ) :=
  let startEdgeOptions := getAllEdgePoints startRect
  let endEdgeOptions := getAllEdgePoints endRect
  match minFold (fun p => dist2 p.1 p.2) (startEdgeOptions.product endEdgeOptions) with
  | some (p, _) => p
  | none => (startEdgeOptions.headD (0, 0), endEdgeOptions.headD (0, 0))

/-- `calculateBindingFocus` from the snapping effect (unclamped; the caller
clamps): offset ratio along the attachment edge. -/
def calculateBindingFocus (rect : Elt) (arrowEnd : ℚ × ℚ) : ℚ :=
  let rectCenterX := rect.x + rect.width / 2
  let rectCenterY := rect.y + rect.height / 2
  let dx := arrowEnd.1 - rectCenterX
  let dy := arrowEnd.2 - rectCenterY
  if |dx| / rect.width > |dy| / rect.height then dy / rect.height else dx / rect.width

/-- `Math.max(-0.5, Math.min(0.5, focus))`. -/
def clampFocus (f : ℚ) : ℚ :=
  max (-(1 / 2) : ℚ) (min ((1 / 2) : ℚ) f)

/-- The data the snapping effect derives for one arrow before the tolerance
check: the chosen rectangles, the new origin, the new relative end point,
and the current relative end point. -/
structure SnapInfo where
  startRect : Elt
  endRect : Elt
  newArrowX : ℚ
  newArrowY : ℚ
  newEndDx : ℚ
  newEndDy : ℚ
  oldEndDx : ℚ
  oldEndDy : ℚ
deriving DecidableEq

/-- Steps 7-10 of the snapping effect for one element: validate the points,
locate the start and end rectangles, and run the shortest-edge search.
`none` exactly when the effect keeps the element unchanged without reaching
the tolerance check (non-arrow, invalid points, or missing rectangles). -/
def snapTarget (rectangles : List Elt) (element : Elt) : Option SnapInfo :=
  if element.type = "arrow" then
    match element.points with
    | some (startPoint :: endPoint :: _) =>
      let currentStartX := element.x + startPoint.1
      let currentStartY := element.y + startPoint.2
      let currentEndX := element.x + endPoint.1
      let currentEndY := element.y + endPoint.2
      match findClosestRectangle rectangles currentStartX currentStartY none with
      | none => none
      | some startRect =>
        match findClosestRectangle rectangles currentEndX currentEndY (some startRect) with
        | none => none
        | some endRect =>
          let best := chooseShortestEdges startRect endRect
          some { startRect := startRect, endRect := endRect,
                 newArrowX := best.1.1, newArrowY := best.1.2,
                 newEndDx := best.2.1 - best.1.1,
                 newEndDy := best.2.2 - best.1.2,
                 oldEndDx := endPoint.1, oldEndDy := endPoint.2 }
    | _ => none
  else none

/-- The tolerance check of the snapping effect (tolerance 2 on the origin
and on the relative end point). -/
def needsUpdate (element : Elt) (info : SnapInfo) : Prop :=
  2 < |element.x - info.newArrowX| ∨ 2 < |element.y - info.newArrowY| ∨
  2 < |info.oldEndDx - info.newEndDx| ∨ 2 < |info.oldEndDy - info.newEndDy|

instance (element : Elt) (info : SnapInfo) : Decidable (needsUpdate element info) := by
  unfold needsUpdate; infer_instance

/-- The body of the `excalidrawElements.map` in the snapping effect: the
possibly-updated element together with its `hasChanges` contribution. -/
def snapOne (rectangles : List Elt) (element : Elt) : Elt × Bool :=
  match snapTarget rectangles element with
  | none => (element, false)
  | some info =>
    if needsUpdate element info then
      let startEdgePoint := (info.newArrowX, info.newArrowY)
      let endEdgePoint := (info.newArrowX + info.newEndDx, info.newArrowY + info.newEndDy)
      let startFocus := calculateBindingFocus info.startRect endEdgePoint
      let endFocus := calculateBindingFocus info.endRect startEdgePoint
      let sb : Binding :=
        { elementId := info.startRect.id, focus := clampFocus startFocus, gap := 4 }
      let eb : Binding :=
        { elementId := info.endRect.id, focus := clampFocus endFocus, gap := 4 }
      ({ element with
          x := info.newArrowX, y := info.newArrowY,
          width := |info.newEndDx|, height := |info.newEndDy|,
          points := some [(0, 0), (info.newEndDx, info.newEndDy)],
          startBinding := some sb,
          endBinding := some eb,
          version := some (jsOrNat element.version 1 + 1) }, true)
    else (element, false)

/-- JS default array sort comparison on two strings, embedded as code-point
lexicographic order on the character lists. -/
def charListLe : List Char → List Char → Bool
  | [], _ => true
  | _ :: _, [] => false
  | a :: as, b :: bs =>
    if a.toNat < b.toNat then true
    else if b.toNat < a.toNat then false
    else charListLe as bs

/-- The order-independent connection key of `deduplicatedElements`: the two
target ids sorted, joined by the arrow separator. -/
def connectionKey (a b : String) : String :=
  if charListLe a.data b.data then a ++ "->" ++ b else b ++ "->" ++ a

/-- The binding pair key of a connector: `none` when either binding is
absent or carries an empty (JS-falsy) target id — such connectors are
always kept. -/
def connKey (arrow : Elt) : Option String :=
  match arrow.startBinding, arrow.endBinding with
  | some sb, some eb =>
    if sb.elementId = "" ∨ eb.elementId = "" then none
    else some (connectionKey sb.elementId eb.elementId)
  | _, _ => none

/-- The arrow-retention loop of `deduplicatedElements`: keep connectors with
an incomplete binding; keep the first connector for each new key; drop any
later connector whose key is already in the connection map. -/
def dedupArrows : List Elt → List String → List Elt
  | [], _ => []
  | arrow :: rest, seen =>
    match connKey arrow with
    | none => arrow :: dedupArrows rest seen
    | some k =>
      if k ∈ seen then dedupArrows rest seen
      else arrow :: dedupArrows rest (k :: seen)

/-- `deduplicatedElements`: split off the arrows, run the retention loop
when there are at least two, and report whether a duplicate was removed
(the `hasChanges` contribution of the dedup block). -/
def deduplicatedElements (updatedElements : List Elt) : List Elt × Bool :=
  let nonArrowElements := updatedElements.filter (fun el => !(el.type == "arrow"))
  let arrowElements := updatedElements.filter (fun el => el.type == "arrow")
  if arrowElements.length ≤ 1 then (updatedElements, false)
  else
    let arrowsToKeep := dedupArrows arrowElements []
    (nonArrowElements ++ arrowsToKeep,
      decide (arrowsToKeep.length < arrowElements.length))

/-- The whole snapping/dedup effect of `page.tsx`: early exit when there is
nothing to process, per-element snapping, duplicate elimination, and the
`hasChanges`-guarded state update.  Returns the collection the host ends up
with and whether `setExcalidrawElements` was called. -/
def runSnapEffect (excalidrawElements : List Elt) : List Elt × Bool :=
  if excalidrawElements.length = 0 then (excalidrawElements, false)
  else
    let arrows := excalidrawElements.filter (fun el => el.type == "arrow")
    let rectangles := excalidrawElements.filter (fun el => el.type == "rectangle")
    if arrows.length = 0 ∨ rectangles.length = 0 then (excalidrawElements, false)
    else
      let snapped := excalidrawElements.map (snapOne rectangles)
      let updatedElements := snapped.map Prod.fst
      let snapChanged := snapped.any Prod.snd
      let deduped := deduplicatedElements updatedElements
      if snapChanged || deduped.2 then (deduped.1, true)
      else (excalidrawElements, false)

end SnapEngine

namespace AgentTools

/-- The element spec an agent command carries (fields that may be absent in
the JS object are `Option`). -/
structure ElementSpec where
  id : Option String
  type : Option String
  x : Option ℚ
  y : Option ℚ
  width : Option ℚ
  height : Option ℚ
  points : Option (List (ℚ × ℚ))
  startBinding : Option Binding
  endBinding : Option Binding
  boundElements : Option (List BoundRef)
  version : Option Nat
deriving DecidableEq

/-- An axis-aligned box, as used by the overlap test in `addElement`. -/
structure RectBox where
  x : ℚ
  y : ℚ
  width : ℚ
  height : ℚ
deriving DecidableEq

/-- `checkOverlap` from `addElement.execute`. -/
def checkOverlap (rect1 rect2 : RectBox) : Bool :=
  !(decide (rect1.x + rect1.width ≤ rect2.x) || decide (rect2.x + rect2.width ≤ rect1.x) ||
    decide (rect1.y + rect1.height ≤ rect2.y) || decide (rect2.y + rect2.height ≤ rect1.y))

/-- The geometry of an element viewed as a plain box. -/
def toBox (el : Elt) : RectBox :=
  ⟨el.x, el.y, el.width, el.height⟩

/-- The auto-positioning loop of `addElement.execute` (`while attempts <
maxAttempts`); `fuel` counts the remaining iterations. -/
def smartPositionGo (current : List Elt) (targetWidth targetHeight : ℚ) :
    Nat → ℚ → ℚ → Nat → ℚ × ℚ
  | 0, targetX, targetY, _ => (targetX, targetY)
  | fuel + 1, targetX, targetY, attempts =>
    let testRect : RectBox := ⟨targetX, targetY, targetWidth, targetHeight⟩
    let hasOverlap := current.any (fun element =>
      if element.type = "rectangle" then checkOverlap testRect (toBox element) else false)
    if hasOverlap then
      let attempts1 := attempts + 1
      let targetX1 := targetX + 50
      let targetY1 := targetY + 50
      let next :=
        if 800 < targetX1 then (((100 : ℚ) + ((attempts1 % 5 : Nat) : ℚ) * 30), targetY1 + 100)
        else (targetX1, targetY1)
      let targetY3 := if 600 < next.2 then ((100 : ℚ) + ((attempts1 % 3 : Nat) : ℚ) * 40) else next.2
      smartPositionGo current targetWidth targetHeight fuel next.1 targetY3 attempts1
    else (targetX, targetY)

/-- `maxAttempts = 100` rounds of the positioning loop. -/
def smartPosition (current : List Elt) (tx ty tw th : ℚ) : ℚ × ℚ :=
  smartPositionGo current tw th 100 tx ty 0

/-- `findTableAtCoordinates`: the first rectangle whose id ends in the
table-background marker `_bg` and whose bounds contain the point
(inclusive). -/
def findTableAtCoordinates (current : List Elt) (x y : ℚ) : Option Elt :=
  let tableElements := current.filter (fun el =>
    strEndsWith el.id "_bg" && el.type == "rectangle")
  tableElements.find? (fun table =>
    decide (table.x ≤ x) && decide (x ≤ table.x + table.width) &&
    decide (table.y ≤ y) && decide (y ≤ table.y + table.height))

/-- `calculateBindingFocus` from `addElement.execute` (this variant clamps
internally). -/
def calculateBindingFocusAt (table : Elt) (pointX pointY : ℚ) : ℚ :=
  let centerX := table.x + table.width / 2
  let centerY := table.y + table.height / 2
  let dx := pointX - centerX
  let dy := pointY - centerY
  let focus := if |dx| / table.width > |dy| / table.height
    then dy / table.height else dx / table.width
  max (-(1 / 2) : ℚ) (min ((1 / 2) : ℚ) focus)

/-- The id given to a new element when the spec does not provide one;
`timestamp` and `uniqueIndex` stand for the random draws. -/
def defaultId (elementType : String) (timestamp uniqueIndex : Nat) : String :=
  elementType ++ "_" ++ toString timestamp ++ "_" ++ toString uniqueIndex

/-- Target geometry of `addElement.execute` after JS-falsy defaulting and
(when the position was not user-specified and the canvas is non-empty)
the auto-positioning loop. -/
def addElementGeometry (current : List Elt) (spec : ElementSpec) : ℚ × ℚ × ℚ × ℚ :=
  let targetX := jsOrQ spec.x 100
  let targetY := jsOrQ spec.y 100
  let targetWidth := jsOrQ spec.width 200
  let targetHeight := jsOrQ spec.height 150
  let userSpecifiedPosition := spec.x.isSome && spec.y.isSome
  if !userSpecifiedPosition && decide (0 < current.length) then
    let p := smartPosition current targetX targetY targetWidth targetHeight
    (p.1, p.2, targetWidth, targetHeight)
  else (targetX, targetY, targetWidth, targetHeight)

/-- The new element constructed by `addElement.execute`, including the
table auto-binding pass for arrows.  The text branch of the source differs
from the rectangle branch only in fields not modelled here. -/
def addElementNew (timestamp uniqueIndex : Nat) (current : List Elt) (spec : ElementSpec) :
    Elt :=
  let g := addElementGeometry current spec
  let elementType := jsOrStr spec.type "rectangle"
  let base : Elt :=
    { id := jsOrStr spec.id (defaultId elementType timestamp uniqueIndex),
      type := elementType, x := g.1, y := g.2.1,
      width := g.2.2.1, height := g.2.2.2,
      points := none, startBinding := none, endBinding := none,
      boundElements := spec.boundElements,
      version := some (jsOrNat spec.version 1), isDeleted := false }
  if elementType = "arrow" then
    let points := spec.points.getD [(0, 0), (100, 0)]
    let withPoints :=
      { base with
        points := some points,
        startBinding := spec.startBinding, endBinding := spec.endBinding }
    let startX := withPoints.x
    let startY := withPoints.y
    let endX := startX + jsOrQ ((points[1]?).map Prod.fst) 100
    let endY := startY + jsOrQ ((points[1]?).map Prod.snd) 0
    let afterStart :=
      match withPoints.startBinding with
      | some _ => withPoints
      | none =>
        match findTableAtCoordinates current startX startY with
        | some sourceTable =>
          let b : Binding :=
            { elementId := sourceTable.id,
              focus := calculateBindingFocusAt sourceTable endX endY, gap := 4 }
          { withPoints with startBinding := some b }
        | none => withPoints
    match afterStart.endBinding with
    | some _ => afterStart
    | none =>
      match findTableAtCoordinates current endX endY with
      | some targetTable =>
        let b : Binding :=
          { elementId := targetTable.id,
            focus := calculateBindingFocusAt targetTable startX startY, gap := 4 }
        { afterStart with endBinding := some b }
      | none => afterStart
  else base

/-- The `boundElements` back-reference update of `addElement.execute`,
applied to each element of the prior collection. -/
def updateBoundElements (newElement : Elt) (element : Elt) : Elt :=
  let isStartTarget := match newElement.startBinding with
    | some b => b.elementId == element.id
    | none => false
  let isEndTarget := match newElement.endBinding with
    | some b => b.elementId == element.id
    | none => false
  if !isStartTarget && !isEndTarget then element
  else
    let currentBoundElements := element.boundElements.getD []
    let alreadyBound := currentBoundElements.any (fun bound => bound.id == newElement.id)
    if alreadyBound then element
    else
      { element with
        boundElements := some (currentBoundElements ++ [⟨newElement.id, "arrow"⟩]) }

/-- `addElement.execute`: build the new element, update the back-references
of its binding targets, and append it. -/
def addElement (timestamp uniqueIndex : Nat) (current : List Elt) (spec : ElementSpec) :
    List Elt :=
  let newElement := addElementNew timestamp uniqueIndex current spec
  let updatedCurrent :=
    if newElement.type = "arrow" ∧
        (newElement.startBinding.isSome ∨ newElement.endBinding.isSome) then
      current.map (updateBoundElements newElement)
    else current
  updatedCurrent ++ [newElement]

/-- One element of the `addMultipleElements` batch, routed by its `type`;
a spec with an unrecognized or missing type maps to `null` and is removed
by the final `filter(Boolean)`. -/
def processSpec (timestamp uniqueIndex index : Nat) (elementData : ElementSpec) :
    Option Elt :=
  match elementData.type with
  | some t =>
    if t = "rectangle" then
      some { id := jsOrStr elementData.id
               ("rect_" ++ toString timestamp ++ "_" ++ toString uniqueIndex ++ "_" ++
                 toString index),
             type := "rectangle",
             x := elementData.x.getD 100, y := elementData.y.getD 100,
             width := jsOrQ elementData.width 200, height := jsOrQ elementData.height 150,
             points := none, startBinding := none, endBinding := none,
             boundElements := elementData.boundElements,
             version := some (jsOrNat elementData.version 1), isDeleted := false }
    else if t = "text" then
      some { id := jsOrStr elementData.id
               ("text_" ++ toString timestamp ++ "_" ++ toString uniqueIndex ++ "_" ++
                 toString index),
             type := "text",
             x := elementData.x.getD 100, y := elementData.y.getD 100,
             width := jsOrQ elementData.width 0, height := jsOrQ elementData.height 0,
             points := none, startBinding := none, endBinding := none,
             boundElements := elementData.boundElements,
             version := some (jsOrNat elementData.version 1), isDeleted := false }
    else if t = "line" then
      some { id := jsOrStr elementData.id
               ("line_" ++ toString timestamp ++ "_" ++ toString uniqueIndex ++ "_" ++
                 toString index),
             type := "line",
             x := elementData.x.getD 0, y := elementData.y.getD 0,
             width := jsOrQ elementData.width 100, height := jsOrQ elementData.height 0,
             points := some (elementData.points.getD [(0, 0), (100, 0)]),
             startBinding := elementData.startBinding,
             endBinding := elementData.endBinding,
             boundElements := elementData.boundElements,
             version := some (jsOrNat elementData.version 1), isDeleted := false }
    else if t = "arrow" then
      some { id := jsOrStr elementData.id
               ("arrow_" ++ toString timestamp ++ "_" ++ toString uniqueIndex ++ "_" ++
                 toString index),
             type := "arrow",
             x := elementData.x.getD 0, y := elementData.y.getD 0,
             width := jsOrQ elementData.width 100, height := jsOrQ elementData.height 0,
             points := some (elementData.points.getD [(0, 0), (100, 0)]),
             startBinding := elementData.startBinding,
             endBinding := elementData.endBinding,
             boundElements := elementData.boundElements,
             version := some (jsOrNat elementData.version 1), isDeleted := false }
    else none
  | none => none

/-- Whether a spec has one of the four types `addMultipleElements` handles. -/
def recognizedType (elementData : ElementSpec) : Bool :=
  match elementData.type with
  | some t => t == "rectangle" || t == "text" || t == "line" || t == "arrow"
  | none => false

/-- `addMultipleElements.execute`: an empty batch returns without touching
the state; otherwise each spec is processed independently and the non-null
results are appended to the current collection. -/
def addMultipleElements (timestamp uniqueIndex : Nat) (current : List Elt)
    (specs : List ElementSpec) : List Elt :=
  if specs.length = 0 then current
  else
    let processedElements := specs.enum.filterMap
      (fun p => processSpec timestamp uniqueIndex p.1 p.2)
    current ++ processedElements

end AgentTools

namespace SnapEngine

/-- Whether a connector is fully bound to the unordered pair `(a, b)`
(in either orientation). -/
def pairMatchesB (a b : String) (e : Elt) : Bool :=
  match e.startBinding, e.endBinding with
  | some sb, some eb =>
    (sb.elementId == a && eb.elementId == b) || (sb.elementId == b && eb.elementId == a)
  | _, _ => false

/-- Scenario Box A at `(0,0,100,100)`. -/
def boxA : Elt :=
  { id := "A", type := "rectangle", x := 0, y := 0, width := 100, height := 100,
    points := none, startBinding := none, endBinding := none,
    boundElements := none, version := some 1, isDeleted := false }

/-- Scenario Box B at `(300,0,100,100)`. -/
def boxB : Elt :=
  { id := "B", type := "rectangle", x := 300, y := 0, width := 100, height := 100,
    points := none, startBinding := none, endBinding := none,
    boundElements := none, version := some 1, isDeleted := false }

/-- A deleted rectangle close to the origin. -/
def deletedRect : Elt :=
  { id := "gone", type := "rectangle", x := 0, y := 0, width := 10, height := 10,
    points := none, startBinding := none, endBinding := none,
    boundElements := none, version := some 1, isDeleted := true }

/-- A live rectangle far from the origin. -/
def farRect : Elt :=
  { id := "far", type := "rectangle", x := 100, y := 0, width := 10, height := 10,
    points := none, startBinding := none, endBinding := none,
    boundElements := none, version := some 1, isDeleted := false }

/-- An arrow already exactly snapped between `boxA` and `boxB`. -/
def snappedArrow : Elt :=
  { id := "ar", type := "arrow", x := 100, y := 50, width := 200, height := 0,
    points := some [(0, 0), (200, 0)], startBinding := none, endBinding := none,
    boundElements := none, version := some 1, isDeleted := false }

/-- An arrow near, but outside, the snapping tolerance between the boxes. -/
def unsnappedArrow : Elt :=
  { id := "ar", type := "arrow", x := 110, y := 50, width := 180, height := 0,
    points := some [(0, 0), (180, 0)], startBinding := none, endBinding := none,
    boundElements := none, version := some 1, isDeleted := false }

/-- What the snapping effect turns `unsnappedArrow` into. -/
def snappedArrowResult : Elt :=
  { id := "ar", type := "arrow", x := 100, y := 50, width := 200, height := 0,
    points := some [(0, 0), (200, 0)],
    startBinding := some { elementId := "A", focus := 0, gap := 4 },
    endBinding := some { elementId := "B", focus := 0, gap := 4 },
    boundElements := none, version := some 2, isDeleted := false }

/-- A connector bound to the pair `(a, b)`. -/
def dupArrow1 : Elt :=
  { id := "ar1", type := "arrow", x := 0, y := 0, width := 10, height := 0,
    points := some [(0, 0), (10, 0)],
    startBinding := some { elementId := "a", focus := 0, gap := 4 },
    endBinding := some { elementId := "b", focus := 0, gap := 4 },
    boundElements := none, version := some 1, isDeleted := false }

/-- A second connector bound to the same pair `(a, b)`. -/
def dupArrow2 : Elt :=
  { id := "ar2", type := "arrow", x := 0, y := 0, width := 10, height := 0,
    points := some [(0, 0), (10, 0)],
    startBinding := some { elementId := "a", focus := 0, gap := 4 },
    endBinding := some { elementId := "b", focus := 0, gap := 4 },
    boundElements := none, version := some 1, isDeleted := false }

end SnapEngine

namespace AgentTools

/-- A table-background rectangle. -/
def tbg : Elt :=
  { id := "t_bg", type := "rectangle", x := 0, y := 0, width := 200, height := 100,
    points := none, startBinding := none, endBinding := none,
    boundElements := none, version := some 1, isDeleted := false }

/-- An ordinary rectangle whose id does not carry the `_bg` marker. -/
def plainRect : Elt :=
  { id := "plain", type := "rectangle", x := 0, y := 0, width := 50, height := 50,
    points := none, startBinding := none, endBinding := none,
    boundElements := none, version := some 1, isDeleted := false }

/-- An arrow spec with both bindings supplied explicitly. -/
def arrowSpec9 : ElementSpec :=
  { id := some "ar9", type := some "arrow", x := some 500, y := some 500,
    width := some 10, height := some 10, points := some [(0, 0), (10, 0)],
    startBinding := some { elementId := "t_bg", focus := 0, gap := 4 },
    endBinding := some { elementId := "t_bg", focus := 0, gap := 4 },
    boundElements := none, version := some 1 }

/-- An arrow spec with no explicit bindings, starting inside `plainRect`. -/
def probeSpec : ElementSpec :=
  { id := some "probe", type := some "arrow", x := some 10, y := some 10,
    width := some 5, height := some 5, points := some [(0, 0), (5, 0)],
    startBinding := none, endBinding := none, boundElements := none, version := some 1 }

/-- A spec whose type is not one of the four recognized kinds. -/
def specEllipse : ElementSpec :=
  { id := none, type := some "ellipse", x := none, y := none, width := none,
    height := none, points := none, startBinding := none, endBinding := none,
    boundElements := none, version := none }

/-- A well-formed rectangle spec. -/
def specRect : ElementSpec :=
  { id := some "r1", type := some "rectangle", x := some 5, y := some 5,
    width := some 10, height := some 10, points := none, startBinding := none,
    endBinding := none, boundElements := none, version := some 1 }

/-- The world coordinates `addElement.execute` derives for the start and end
of a new arrow (used by the auto-binding lookups), mirroring the lets of the
arrow branch. -/
def arrowEndpoints (current : List Elt) (spec : ElementSpec) : (ℚ × ℚ) × (ℚ × ℚ) :=
  let g := addElementGeometry current spec
  let points := spec.points.getD [(0, 0), (100, 0)]
  ((g.1, g.2.1),
   (g.1 + jsOrQ ((points[1]?).map Prod.fst) 100,
    g.2.1 + jsOrQ ((points[1]?).map Prod.snd) 0))

end AgentTools

namespace HostSync

/-- C1 (amended): an inbound `setValue` update is accepted exactly when the
incoming collection is empty, or at least as large as the accepted one, or
the update is within the 2-second recency window and either the drop is at
most 5 elements or the prior accepted mutation's provenance was
programmatic.  A rejected update leaves the whole context unchanged; an
accepted one installs the incoming collection. -/
theorem setValue_regression_policy (s : SyncState) (now : ℤ) (v : List Elt) :
    ((setValueStep s now v).2 = true ↔
      (v.length = 0 ∨ s.elements.length ≤ v.length ∨
        (now - s.lastTimestamp < 2000 ∧
          (s.elements.length - v.length ≤ 5 ∨ isProgrammaticSource s.lastSource = true)))) ∧
    ((setValueStep s now v).2 = false → (setValueStep s now v).1 = s) ∧
    ((setValueStep s now v).2 = true → (setValueStep s now v).1.elements = v) := by
  unfold setValueStep
  dsimp only
  split_ifs with h0 h1 h2 h3
  · exact ⟨iff_of_true rfl (Or.inl h0), by simp, fun _ => rfl⟩
  · exact ⟨iff_of_true rfl (Or.inr (Or.inl h1)), by simp, fun _ => rfl⟩
  · exact ⟨iff_of_true rfl (Or.inr (Or.inr ⟨h2.1, Or.inl (by omega)⟩)), by simp, fun _ => rfl⟩
  · exact ⟨iff_of_true rfl (Or.inr (Or.inr ⟨h3.2, Or.inr h3.1⟩)), by simp, fun _ => rfl⟩
  · refine ⟨iff_of_false (by simp) ?_, fun _ => rfl, by simp⟩
    rintro (h | h | ⟨hw, hd | hp⟩)
    · exact h0 h
    · exact h1 h
    · exact h2 ⟨hw, by omega⟩
    · exact h3 ⟨hp, hw⟩

/-- Witness for `setValue_regression_policy`: a 7-element collection, a
5-element drop arriving 5 seconds after the last accepted mutation from a
non-programmatic source, is rejected and the context retained. -/
theorem setValue_regression_policy_witness :
    (setValueStep ⟨List.replicate 7 blankElt, 0, "increase", 7⟩ 5000
        (List.replicate 2 blankElt)).2 = false ∧
    (setValueStep ⟨List.replicate 7 blankElt, 0, "increase", 7⟩ 5000
        (List.replicate 2 blankElt)).1 = ⟨List.replicate 7 blankElt, 0, "increase", 7⟩ := by
  have h := setValue_regression_policy ⟨List.replicate 7 blankElt, 0, "increase", 7⟩ 5000
    (List.replicate 2 blankElt)
  have hrej : (setValueStep ⟨List.replicate 7 blankElt, 0, "increase", 7⟩ 5000
      (List.replicate 2 blankElt)).2 = false := by decide
  exact ⟨hrej, h.2.1 hrej⟩

/-- C1 counterexample to the claim as stated: with 7 accepted elements, an
incoming 2-element collection (a drop of exactly 5) from a recent,
non-programmatic context is accepted by the code, although the claim's
conditions (drop strictly below 5, or programmatic provenance) both fail. -/
theorem setValue_claim_counterexample :
    (setValueStep ⟨List.replicate 7 blankElt, 0, "increase", 7⟩ 100
        (List.replicate 2 blankElt)).2 = true ∧
    ¬ ((7 : Nat) - 2 < 5) ∧
    isProgrammaticSource "increase" = false ∧
    ((100 : ℤ) - 0 < 2000) := by
  refine ⟨by decide, by decide, by decide, by decide⟩

end HostSync

namespace NuclearCanvas

/-- C2 (amended): every empty snapshot arriving while the mount-grace flag
is set is swallowed (so several may be swallowed before the first push);
the flag is cleared at the microtask after a push and no event ever sets it
again; after that an empty snapshot bypasses the grace rule but is
propagated as a clear only when the tracked valid count is zero — otherwise
the cache-restore protection re-emits the cached elements instead. -/
theorem mount_grace_behaviour :
    (∀ (s : CState) (els : List Elt), s.ignoreFirstEmpty = true → els.length = 0 →
      handleChange s els = (s, .graceSwallow)) ∧
    (∀ (s : CState) (e : Ev), s.ignoreFirstEmpty = false →
      (step s e).ignoreFirstEmpty = false) ∧
    (∀ s : CState, (step s .tick).ignoreFirstEmpty = false) ∧
    (∀ (s : CState) (els : List Elt), s.ignoreFirstEmpty = false → s.pushing = false →
      els = [] → s.cache.length = s.lastValidCount → 0 < s.lastValidCount →
      handleChange s els = (s, .cacheRestore s.cache)) ∧
    (∀ (s : CState) (els : List Elt), s.ignoreFirstEmpty = false → s.pushing = false →
      els = [] → s.lastValidCount = 0 →
      handleChange s els = (s, .propagate els)) := by
  refine ⟨?_, ?_, ?_, ?_, ?_⟩
  · intro s els h1 h2
    unfold handleChange
    rw [if_pos ⟨h1, h2⟩]
  · intro s e h
    cases e with
    | change els =>
      show (handleChange s els).1.ignoreFirstEmpty = false
      unfold handleChange
      split_ifs <;> simp_all
    | host els =>
      show (hostEffect s els).ignoreFirstEmpty = false
      unfold hostEffect
      dsimp only
      split_ifs <;> simp_all
    | tick => rfl
  · intro s; rfl
  · intro s els h1 h2 h3 h4 h5
    subst h3
    unfold handleChange
    split_ifs with g1 g2 g3 g4 <;>
      first
        | rfl
        | (exfalso; simp_all)
  · intro s els h1 h2 h3 h4
    subst h3
    unfold handleChange
    split_ifs with g1 g2 g3 g4 <;>
      first
        | rfl
        | (exfalso; simp_all)

/-- Witness for `mount_grace_behaviour`: with the grace rule disabled, no
push in flight and one cached element, an empty snapshot triggers the
cache-restore path. -/
theorem mount_grace_behaviour_witness :
    handleChange ⟨false, false, [blankElt], 1, 1, true⟩ [] =
      (⟨false, false, [blankElt], 1, 1, true⟩, .cacheRestore [blankElt]) :=
  mount_grace_behaviour.2.2.2.1 ⟨false, false, [blankElt], 1, 1, true⟩ [] rfl rfl rfl
    (by decide) (by decide)

/-- C2 counterexample to the claim as stated: from the mount state, two
consecutive empty snapshots are both swallowed by the grace rule (the flag
is only cleared by the post-push microtask, not by the first swallow), so
more than one empty snapshot can be swallowed. -/
theorem mount_grace_counterexample :
    handleChange initState [] = (initState, .graceSwallow) ∧
    step initState (.change []) = initState ∧
    handleChange (step initState (.change [])) [] = (initState, .graceSwallow) := by
  refine ⟨by decide, by decide, by decide⟩

end NuclearCanvas

namespace HashCanvas

/-- C3: a snapshot whose structural fingerprint (the concatenation, in
collection order, of the `id:type:x:y:version` tuples) equals the
fingerprint of the last snapshot pushed to the surface or of the last
snapshot accepted from it is dropped: nothing is propagated to the host and
the recorded last-accepted collection and both fingerprints are unchanged. -/
theorem fingerprint_noop_detection (s : FPState) (els : List Elt)
    (h : getElementsHash els = s.lastPushedHash ∨
      getElementsHash els = s.lastReceivedHash) :
    propagates (handleChange s els).2 = false ∧
    (handleChange s els).1.lastReceivedElements = s.lastReceivedElements ∧
    (handleChange s els).1.lastReceivedHash = s.lastReceivedHash ∧
    (handleChange s els).1.lastPushedHash = s.lastPushedHash := by
  unfold handleChange
  dsimp only
  by_cases h0 : s.ignoreFirstEmpty = true ∧ els.length = 0
  · rw [if_pos h0]; exact ⟨rfl, rfl, rfl, rfl⟩
  · rw [if_neg h0]
    by_cases h1 : getElementsHash els = s.lastPushedHash
    · rw [if_pos h1]; exact ⟨rfl, rfl, rfl, rfl⟩
    · rw [if_neg h1]
      have h2 : getElementsHash els = s.lastReceivedHash := by tauto
      rw [if_pos h2]
      exact ⟨rfl, rfl, rfl, rfl⟩

/-- Witness for `fingerprint_noop_detection`: a snapshot equal (by
fingerprint) to the last pushed snapshot is dropped without propagation. -/
theorem fingerprint_noop_witness :
    propagates (handleChange ⟨getElementsHash [blankElt], "", [], false, false⟩
        [blankElt]).2 = false ∧
    (handleChange ⟨getElementsHash [blankElt], "", [], false, false⟩
        [blankElt]).1.lastReceivedElements = [] ∧
    (handleChange ⟨getElementsHash [blankElt], "", [], false, false⟩
        [blankElt]).1.lastReceivedHash = "" ∧
    (handleChange ⟨getElementsHash [blankElt], "", [], false, false⟩
        [blankElt]).1.lastPushedHash = getElementsHash [blankElt] :=
  fingerprint_noop_detection ⟨getElementsHash [blankElt], "", [], false, false⟩ [blankElt]
    (Or.inl rfl)

end HashCanvas

namespace SnapEngine

/-- The strict-minimum loop started at `(b, f b)` returns an element of
`b :: l` with its cost, and that cost is a lower bound for `f` on `b :: l`. -/
theorem minFoldGo_spec {α : Type} (f : α → ℚ) :
    ∀ (l : List α) (b : α),
      ((minFoldGo f (b, f b) l).2 = f (minFoldGo f (b, f b) l).1) ∧
      ((minFoldGo f (b, f b) l).1 = b ∨ (minFoldGo f (b, f b) l).1 ∈ l) ∧
      f (minFoldGo f (b, f b) l).1 ≤ f b ∧
      (∀ x ∈ l, f (minFoldGo f (b, f b) l).1 ≤ f x) := by
  intro l
  induction l with
  | nil => exact fun b => ⟨rfl, Or.inl rfl, le_refl _, by simp⟩
  | cons c t ih =>
    intro b
    have hstep : minFoldGo f (b, f b) (c :: t) =
        if f c < f b then minFoldGo f (c, f c) t else minFoldGo f (b, f b) t := rfl
    rw [hstep]
    by_cases h : f c < f b
    · rw [if_pos h]
      obtain ⟨h1, h2, h3, h4⟩ := ih c
      refine ⟨h1, ?_, le_of_lt (lt_of_le_of_lt h3 h), ?_⟩
      · rcases h2 with h2 | h2
        · exact Or.inr (by rw [h2]; exact List.mem_cons_self c t)
        · exact Or.inr (List.mem_cons_of_mem c h2)
      · intro x hx
        rcases List.mem_cons.mp hx with rfl | hx
        · exact h3
        · exact h4 x hx
    · rw [if_neg h]
      obtain ⟨h1, h2, h3, h4⟩ := ih b
      refine ⟨h1, ?_, h3, ?_⟩
      · rcases h2 with h2 | h2
        · exact Or.inl h2
        · exact Or.inr (List.mem_cons_of_mem c h2)
      · intro x hx
        rcases List.mem_cons.mp hx with rfl | hx
        · exact le_trans h3 (le_of_not_lt h)
        · exact h4 x hx

/-- The strict-minimum loop keeps the seed on ties and otherwise lands on an
occurrence that strictly beats the seed and everything before it. -/
theorem minFoldGo_first {α : Type} (f : α → ℚ) :
    ∀ (l : List α) (b : α),
      (minFoldGo f (b, f b) l).1 = b ∨
      ∃ l1 l2, l = l1 ++ (minFoldGo f (b, f b) l).1 :: l2 ∧
        f (minFoldGo f (b, f b) l).1 < f b ∧
        ∀ x ∈ l1, f (minFoldGo f (b, f b) l).1 < f x := by
  intro l
  induction l with
  | nil => exact fun b => Or.inl rfl
  | cons c t ih =>
    intro b
    have hstep : minFoldGo f (b, f b) (c :: t) =
        if f c < f b then minFoldGo f (c, f c) t else minFoldGo f (b, f b) t := rfl
    rw [hstep]
    by_cases h : f c < f b
    · rw [if_pos h]
      rcases ih c with h1 | ⟨l1, l2, ht, hlt, hall⟩
      · refine Or.inr ⟨[], t, ?_, ?_, by simp⟩
        · rw [List.nil_append, h1]
        · rw [h1]; exact h
      · refine Or.inr ⟨c :: l1, l2, by rw [List.cons_append, ← ht], lt_trans hlt h, ?_⟩
        intro x hx
        rcases List.mem_cons.mp hx with rfl | hx
        · exact hlt
        · exact hall x hx
    · rw [if_neg h]
      rcases ih b with h1 | ⟨l1, l2, ht, hlt, hall⟩
      · exact Or.inl h1
      · refine Or.inr ⟨c :: l1, l2, by rw [List.cons_append, ← ht], hlt, ?_⟩
        intro x hx
        rcases List.mem_cons.mp hx with rfl | hx
        · exact lt_of_lt_of_le hlt (le_of_not_lt h)
        · exact hall x hx

/-- `minFold` on a nonempty list returns a cost-minimal element. -/
theorem minFold_min {α : Type} (f : α → ℚ) (l : List α) (h : l ≠ []) :
    ∃ m c, minFold f l = some (m, c) ∧ m ∈ l ∧ c = f m ∧ ∀ x ∈ l, f m ≤ f x := by
  cases l with
  | nil => exact absurd rfl h
  | cons b t =>
    obtain ⟨h1, h2, h3, h4⟩ := minFoldGo_spec f t b
    refine ⟨(minFoldGo f (b, f b) t).1, (minFoldGo f (b, f b) t).2, by simp [minFold], ?_,
      h1, ?_⟩
    · rcases h2 with h2 | h2
      · exact (by rw [h2]; exact List.mem_cons_self b t)
      · exact List.mem_cons_of_mem b h2
    · intro x hx
      rcases List.mem_cons.mp hx with rfl | hx
      · exact h3
      · exact h4 x hx

/-- `minFold` lands on the first occurrence of the minimum: everything
strictly before the returned element has strictly larger cost. -/
theorem minFold_first {α : Type} (f : α → ℚ) (l : List α) (m : α) (c : ℚ)
    (h : minFold f l = some (m, c)) :
    ∃ l1 l2, l = l1 ++ m :: l2 ∧ ∀ x ∈ l1, f m < f x := by
  cases l with
  | nil => simp [minFold] at h
  | cons b t =>
    have hm : (minFoldGo f (b, f b) t).1 = m := by
      have : minFoldGo f (b, f b) t = (m, c) := by simpa [minFold] using h
      rw [this]
    rcases minFoldGo_first f t b with h1 | ⟨l1, l2, ht, hlt, hall⟩
    · refine ⟨[], t, ?_, by simp⟩
      rw [List.nil_append, ← hm, h1]
    · refine ⟨b :: l1, l2, by rw [List.cons_append, ← hm, ← ht], ?_⟩
      intro x hx
      rcases List.mem_cons.mp hx with rfl | hx
      · exact hm ▸ hlt
      · exact hm ▸ hall x hx

/-- C5 (amended): `findClosestRectangle` over the type-filtered rectangle
list — which includes deleted rectangles — returns a rectangle whose center
is at minimal squared distance from the query point, and on ties the one
occurring first in collection order: every strictly earlier rectangle in
the scan order is strictly farther. -/
theorem findClosestRectangle_first_min (els : List Elt) (px py : ℚ)
    (h : els.filter (fun el => el.type == "rectangle") ≠ []) :
    ∃ m, findClosestRectangle (els.filter (fun el => el.type == "rectangle")) px py none =
        some m ∧
      m ∈ els.filter (fun el => el.type == "rectangle") ∧
      (∀ r ∈ els.filter (fun el => el.type == "rectangle"),
        dist2 (px, py) (rectCenter m) ≤ dist2 (px, py) (rectCenter r)) ∧
      ∃ l1 l2, els.filter (fun el => el.type == "rectangle") = l1 ++ m :: l2 ∧
        ∀ r ∈ l1, dist2 (px, py) (rectCenter m) < dist2 (px, py) (rectCenter r) := by
  obtain ⟨m, c, hfold, hmem, hc, hmin⟩ :=
    minFold_min (fun rect => dist2 (px, py) (rectCenter rect))
      (els.filter (fun el => el.type == "rectangle")) h
  obtain ⟨l1, l2, hsplit, hfirst⟩ :=
    minFold_first (fun rect => dist2 (px, py) (rectCenter rect))
      (els.filter (fun el => el.type == "rectangle")) m c hfold
  refine ⟨m, ?_, hmem, hmin, l1, l2, hsplit, hfirst⟩
  unfold findClosestRectangle
  dsimp only
  rw [List.filter_true, hfold]

/-- Witness for `findClosestRectangle_first_min` at a one-element
collection. -/
theorem findClosestRectangle_first_min_witness :
    ∃ m, findClosestRectangle ([blankElt].filter (fun el => el.type == "rectangle")) 0 0 none =
        some m ∧
      m ∈ [blankElt].filter (fun el => el.type == "rectangle") ∧
      (∀ r ∈ [blankElt].filter (fun el => el.type == "rectangle"),
        dist2 (0, 0) (rectCenter m) ≤ dist2 (0, 0) (rectCenter r)) ∧
      ∃ l1 l2, [blankElt].filter (fun el => el.type == "rectangle") = l1 ++ m :: l2 ∧
        ∀ r ∈ l1, dist2 (0, 0) (rectCenter m) < dist2 (0, 0) (rectCenter r) :=
  findClosestRectangle_first_min [blankElt] 0 0 (by decide)

/-- C5 counterexample to the claim as stated: the lookup does not restrict
to non-deleted boxes — with a deleted rectangle at the origin and a live
one far away, it returns the deleted one, not the closest live one. -/
theorem findClosestRectangle_deleted_counterexample :
    findClosestRectangle ([deletedRect, farRect].filter (fun el => el.type == "rectangle"))
        0 0 none = some deletedRect ∧
    deletedRect.isDeleted = true ∧
    findClosestRectangle ([deletedRect, farRect].filter (fun el => el.type == "rectangle"))
        0 0 none ≠ some farRect := by
  have hval : findClosestRectangle
      ([deletedRect, farRect].filter (fun el => el.type == "rectangle")) 0 0 none =
      some deletedRect := by
    norm_num [findClosestRectangle, minFold, minFoldGo, dist2, rectCenter,
      deletedRect, farRect, List.filter]
  refine ⟨hval, rfl, ?_⟩
  rw [hval]
  intro hcontra
  have : deletedRect = farRect := by injection hcontra
  exact absurd (congrArg Elt.id this) (by decide)

end SnapEngine

namespace SnapEngine

/-- Membership in the nested-loop pairing list. -/
theorem mem_productL {α β : Type} {l1 : List α} {l2 : List β} {a : α} {b : β} :
    (a, b) ∈ l1.product l2 ↔ a ∈ l1 ∧ b ∈ l2 :=
  List.mem_product

/-- The shortest-edge search returns a pairing of edge midpoints of the two
boxes minimizing the squared distance over all 16 pairings. -/
theorem chooseShortestEdges_min (startRect endRect : Elt) :
    (chooseShortestEdges startRect endRect).1 ∈ getAllEdgePoints startRect ∧
    (chooseShortestEdges startRect endRect).2 ∈ getAllEdgePoints endRect ∧
    ∀ s ∈ getAllEdgePoints startRect, ∀ e ∈ getAllEdgePoints endRect,
      dist2 (chooseShortestEdges startRect endRect).1
        (chooseShortestEdges startRect endRect).2 ≤ dist2 s e := by
  have hne : (getAllEdgePoints startRect).product (getAllEdgePoints endRect) ≠ [] := by
    simp [getAllEdgePoints, List.product]
  obtain ⟨m, c, hfold, hmem, hc, hmin⟩ :=
    minFold_min (fun p => dist2 p.1 p.2)
      ((getAllEdgePoints startRect).product (getAllEdgePoints endRect)) hne
  have hch : chooseShortestEdges startRect endRect = m := by
    unfold chooseShortestEdges
    dsimp only
    rw [hfold]
  have hmem' : (m.1, m.2) ∈ (getAllEdgePoints startRect).product (getAllEdgePoints endRect) := by
    rw [Prod.mk.eta]; exact hmem
  obtain ⟨hm1, hm2⟩ := mem_productL.mp hmem'
  refine ⟨by rw [hch]; exact hm1, by rw [hch]; exact hm2, ?_⟩
  intro s hs e he
  have h := hmin (s, e) (mem_productL.mpr ⟨hs, he⟩)
  rw [hch]
  exact h

/-- Concrete shortest-edge selection for the scenario boxes. -/
theorem chooseShortestEdges_boxAB :
    chooseShortestEdges boxA boxB = ((100, 50), (300, 50)) := by
  norm_num [chooseShortestEdges, getAllEdgePoints, minFold, minFoldGo, dist2,
    List.product, boxA, boxB]

/-- C4: for every bound pair of boxes the engine evaluates the 16 pairings of
the four cardinal edge midpoints of the two boxes and selects a pairing of
minimal Euclidean distance as the rendered endpoints; in the scenario with
Box A at `(0,0,100,100)` and Box B at `(300,0,100,100)` the selected
endpoints are `(100,50)` on the right edge of A and `(300,50)` on the left
edge of B. -/
theorem shortest_edge_attachment :
    (∀ startRect endRect : Elt,
      (chooseShortestEdges startRect endRect).1 ∈ getAllEdgePoints startRect ∧
      (chooseShortestEdges startRect endRect).2 ∈ getAllEdgePoints endRect ∧
      ∀ s ∈ getAllEdgePoints startRect, ∀ e ∈ getAllEdgePoints endRect,
        dist2 (chooseShortestEdges startRect endRect).1
          (chooseShortestEdges startRect endRect).2 ≤ dist2 s e) ∧
    chooseShortestEdges boxA boxB = ((100, 50), (300, 50)) := by
  exact ⟨chooseShortestEdges_min, chooseShortestEdges_boxAB⟩

/-- Witness for `shortest_edge_attachment`, applying the minimality part at
the scenario boxes and the right/left edge pairing. -/
theorem shortest_edge_attachment_witness :
    dist2 (chooseShortestEdges boxA boxB).1 (chooseShortestEdges boxA boxB).2 ≤
      dist2 (boxA.x, boxA.y + boxA.height / 2) (boxB.x + boxB.width, boxB.y + boxB.height / 2) :=
  (shortest_edge_attachment.1 boxA boxB).2.2
    (boxA.x, boxA.y + boxA.height / 2) (by simp [getAllEdgePoints])
    (boxB.x + boxB.width, boxB.y + boxB.height / 2) (by simp [getAllEdgePoints])

end SnapEngine

namespace SnapEngine

/-- Two characters with the same code point are equal. -/
theorem char_toNat_inj {a b : Char} (h : a.toNat = b.toNat) : a = b :=
  Char.eq_of_val_eq (UInt32.ext h)

/-- The JS sort comparison is total. -/
theorem charListLe_total : ∀ a b : List Char,
    charListLe a b = true ∨ charListLe b a = true := by
  intro a
  induction a with
  | nil => intro b; exact Or.inl rfl
  | cons c cs ih =>
    intro b
    cases b with
    | nil => exact Or.inr rfl
    | cons d ds =>
      rcases Nat.lt_trichotomy c.toNat d.toNat with h | h | h
      · left; simp [charListLe, h]
      · rcases ih ds with h2 | h2
        · left; simp [charListLe, h, h2]
        · right; simp [charListLe, h, h2]
      · right; simp [charListLe, h]

/-- The JS sort comparison is antisymmetric. -/
theorem charListLe_antisymm : ∀ a b : List Char,
    charListLe a b = true → charListLe b a = true → a = b := by
  intro a
  induction a with
  | nil =>
    intro b _ h2
    cases b with
    | nil => rfl
    | cons d ds => simp [charListLe] at h2
  | cons c cs ih =>
    intro b h1 h2
    cases b with
    | nil => simp [charListLe] at h1
    | cons d ds =>
      rcases Nat.lt_trichotomy c.toNat d.toNat with h | h | h
      · exfalso
        have : ¬ d.toNat < c.toNat := by omega
        simp [charListLe, this, Nat.ne_of_gt h] at h2
        omega
      · have hcd : c = d := char_toNat_inj h
        have hrest : charListLe cs ds = true := by
          simp [charListLe, h, Nat.lt_irrefl] at h1
          exact h1
        have hrest2 : charListLe ds cs = true := by
          simp [charListLe, h.symm, Nat.lt_irrefl] at h2
          exact h2
        rw [hcd, ih ds hrest hrest2]
      · exfalso
        have : ¬ c.toNat < d.toNat := by omega
        simp [charListLe, this, Nat.ne_of_gt h] at h1
        omega

/-- The connection key does not depend on the orientation of the pair. -/
theorem connectionKey_comm (a b : String) : connectionKey a b = connectionKey b a := by
  unfold connectionKey
  by_cases h1 : charListLe a.data b.data = true
  · by_cases h2 : charListLe b.data a.data = true
    · have hab : a = b := congrArg String.mk (charListLe_antisymm a.data b.data h1 h2)
      rw [hab]
    · rw [if_pos h1, if_neg h2]
  · have h2 : charListLe b.data a.data = true := by
      rcases charListLe_total a.data b.data with h | h
      · exact absurd h h1
      · exact h
    rw [if_neg h1, if_pos h2]

/-- A connector fully bound to the nonempty-id pair `(a, b)` carries the
connection key of that pair. -/
theorem pairMatchesB_key (a b : String) (e : Elt) (ha : a ≠ "") (hb : b ≠ "")
    (h : pairMatchesB a b e = true) : connKey e = some (connectionKey a b) := by
  unfold pairMatchesB at h
  unfold connKey
  cases hsb : e.startBinding with
  | none => rw [hsb] at h; simp at h
  | some sb =>
    cases heb : e.endBinding with
    | none => rw [hsb, heb] at h; simp at h
    | some eb =>
      rw [hsb, heb] at h
      dsimp only
      simp only [Bool.or_eq_true, Bool.and_eq_true, beq_iff_eq] at h
      rcases h with ⟨h1, h2⟩ | ⟨h1, h2⟩
      · rw [if_neg (by rw [h1, h2]; simp [ha, hb])]
        rw [h1, h2]
      · rw [if_neg (by rw [h1, h2]; simp [ha, hb])]
        rw [h1, h2, connectionKey_comm]

/-- The retention loop produces a sublist of its input. -/
theorem dedupArrows_sublist : ∀ (l : List Elt) (seen : List String),
    List.Sublist (dedupArrows l seen) l := by
  intro l
  induction l with
  | nil => intro seen; simp [dedupArrows]
  | cons a rest ih =>
    intro seen
    unfold dedupArrows
    cases h : connKey a with
    | none => exact (ih seen).cons₂ a
    | some k =>
      dsimp only
      by_cases hk : k ∈ seen
      · rw [if_pos hk]; exact (ih seen).cons a
      · rw [if_neg hk]; exact (ih (k :: seen)).cons₂ a

/-- No connector whose key is already in the map survives the loop. -/
theorem dedupArrows_seen_not_mem : ∀ (l : List Elt) (seen : List String) (k : String),
    k ∈ seen → ∀ e ∈ dedupArrows l seen, connKey e ≠ some k := by
  intro l
  induction l with
  | nil => intro seen k _ e he; simp [dedupArrows] at he
  | cons a rest ih =>
    intro seen k hk e he
    unfold dedupArrows at he
    cases h : connKey a with
    | none =>
      rw [h] at he
      rcases List.mem_cons.mp he with rfl | he
      · rw [h]; simp
      · exact ih seen k hk e he
    | some k' =>
      rw [h] at he
      dsimp only at he
      by_cases hk' : k' ∈ seen
      · rw [if_pos hk'] at he
        exact ih seen k hk e he
      · rw [if_neg hk'] at he
        rcases List.mem_cons.mp he with rfl | he
        · rw [h]
          intro hcontra
          exact hk' (by injection hcontra with hkk; rw [hkk]; exact hk)
        · exact ih (k' :: seen) k (List.mem_cons_of_mem k' hk) e he

/-- At most one connector with any given key survives the loop. -/
theorem dedupArrows_key_count : ∀ (l : List Elt) (seen : List String) (k : String),
    ((dedupArrows l seen).filter (fun e => decide (connKey e = some k))).length ≤ 1 := by
  intro l
  induction l with
  | nil => intro seen k; simp [dedupArrows]
  | cons a rest ih =>
    intro seen k
    unfold dedupArrows
    cases h : connKey a with
    | none =>
      rw [List.filter_cons_of_neg (by simp [h])]
      exact ih seen k
    | some k' =>
      dsimp only
      by_cases hk' : k' ∈ seen
      · rw [if_pos hk']; exact ih seen k
      · rw [if_neg hk']
        by_cases hkk : k' = k
        · rw [List.filter_cons_of_pos (by simp [h, hkk])]
          have hzero : ((dedupArrows rest (k' :: seen)).filter
              (fun e => decide (connKey e = some k))).length = 0 := by
            rw [List.length_eq_zero, List.filter_eq_nil_iff]
            intro e he
            have := dedupArrows_seen_not_mem rest (k' :: seen) k
              (by rw [← hkk]; exact List.mem_cons_self k' seen) e he
            simp [this]
          simp [hzero]
        · rw [List.filter_cons_of_neg (by simp [h, hkk])]
          exact ih (k' :: seen) k

/-- A surviving connector whose key was not already in the map is the first
connector of the input with that key. -/
theorem dedupArrows_first : ∀ (l : List Elt) (seen : List String) (e : Elt) (k : String),
    e ∈ dedupArrows l seen → connKey e = some k → k ∉ seen →
    ∃ l1 l2, l = l1 ++ e :: l2 ∧ ∀ a ∈ l1, connKey a ≠ some k := by
  intro l
  induction l with
  | nil => intro seen e k he; simp [dedupArrows] at he
  | cons a rest ih =>
    intro seen e k he hkey hseen
    unfold dedupArrows at he
    cases h : connKey a with
    | none =>
      rw [h] at he
      rcases List.mem_cons.mp he with rfl | he
      · rw [hkey] at h; simp at h
      · obtain ⟨l1, l2, hsplit, hfirst⟩ := ih seen e k he hkey hseen
        refine ⟨a :: l1, l2, by rw [hsplit]; rfl, ?_⟩
        intro x hx
        rcases List.mem_cons.mp hx with rfl | hx
        · rw [h]; simp
        · exact hfirst x hx
    | some k' =>
      rw [h] at he
      dsimp only at he
      by_cases hk' : k' ∈ seen
      · rw [if_pos hk'] at he
        obtain ⟨l1, l2, hsplit, hfirst⟩ := ih seen e k he hkey hseen
        refine ⟨a :: l1, l2, by rw [hsplit]; rfl, ?_⟩
        intro x hx
        rcases List.mem_cons.mp hx with rfl | hx
        · rw [h]
          intro hcontra
          exact hseen (by injection hcontra with hkk; rw [← hkk]; exact hk')
        · exact hfirst x hx
      · rw [if_neg hk'] at he
        rcases List.mem_cons.mp he with rfl | he
        · exact ⟨[], rest, rfl, by simp⟩
        · by_cases hkk : k = k'
          · exfalso
            exact dedupArrows_seen_not_mem rest (k' :: seen) k
              (by rw [hkk]; exact List.mem_cons_self k' seen) e he hkey
          · obtain ⟨l1, l2, hsplit, hfirst⟩ :=
              ih (k' :: seen) e k he hkey (by simp [hkk, hseen])
            refine ⟨a :: l1, l2, by rw [hsplit]; rfl, ?_⟩
            intro x hx
            rcases List.mem_cons.mp hx with rfl | hx
            · rw [h]
              intro hcontra
              exact hkk (by injection hcontra with hkk2; rw [hkk2])
            · exact hfirst x hx

/-- When every connector carries the key already in the map, none survives. -/
theorem dedupArrows_all_seen : ∀ (l : List Elt) (seen : List String) (k : String),
    (∀ e ∈ l, connKey e = some k) → k ∈ seen → dedupArrows l seen = [] := by
  intro l
  induction l with
  | nil => intro seen k _ _; rfl
  | cons a rest ih =>
    intro seen k hall hk
    unfold dedupArrows
    rw [hall a (List.mem_cons_self a rest)]
    dsimp only
    rw [if_pos hk]
    exact ih seen k (fun e he => hall e (List.mem_cons_of_mem a he)) hk

/-- Connectors with an incomplete binding always survive the loop. -/
theorem dedupArrows_none_kept : ∀ (l : List Elt) (seen : List String) (e : Elt),
    e ∈ l → connKey e = none → e ∈ dedupArrows l seen := by
  intro l
  induction l with
  | nil => intro seen e he; simp at he
  | cons a rest ih =>
    intro seen e he hkey
    unfold dedupArrows
    rcases List.mem_cons.mp he with rfl | he
    · rw [hkey]; exact List.mem_cons_self e _
    · cases h : connKey a with
      | none => exact List.mem_cons_of_mem a (ih seen e he hkey)
      | some k' =>
        dsimp only
        by_cases hk' : k' ∈ seen
        · rw [if_pos hk']; exact ih seen e he hkey
        · rw [if_neg hk']; exact List.mem_cons_of_mem a (ih (k' :: seen) e he hkey)

/-- Filtering by a stronger predicate keeps at most as many elements. -/
theorem length_filter_mono {α : Type} (p q : α → Bool) (l : List α)
    (h : ∀ x, p x = true → q x = true) :
    (l.filter p).length ≤ (l.filter q).length := by
  induction l with
  | nil => simp
  | cons a t ih =>
    by_cases hp : p a = true
    · rw [List.filter_cons_of_pos hp, List.filter_cons_of_pos (h a hp)]
      simpa using ih
    · rw [List.filter_cons_of_neg (by simp [hp])]
      by_cases hq : q a = true
      · rw [List.filter_cons_of_pos hq]
        exact le_trans ih (by simp)
      · rw [List.filter_cons_of_neg (by simp [hq])]
        exact ih

/-- The arrows surviving `deduplicatedElements`. -/
theorem deduplicatedElements_arrows (updatedElements : List Elt) :
    ((deduplicatedElements updatedElements).1).filter (fun el => el.type == "arrow") =
      if (updatedElements.filter (fun el => el.type == "arrow")).length ≤ 1 then
        updatedElements.filter (fun el => el.type == "arrow")
      else dedupArrows (updatedElements.filter (fun el => el.type == "arrow")) [] := by
  unfold deduplicatedElements
  dsimp only
  by_cases h : (updatedElements.filter (fun el => el.type == "arrow")).length ≤ 1
  · rw [if_pos h, if_pos h]
  · rw [if_neg h, if_neg h]
    dsimp only
    rw [List.filter_append]
    have h1 : (updatedElements.filter (fun el => !(el.type == "arrow"))).filter
        (fun el => el.type == "arrow") = [] := by
      rw [List.filter_filter, List.filter_eq_nil_iff]
      intro a _
      simp
    have h2 : (dedupArrows (updatedElements.filter (fun el => el.type == "arrow")) []).filter
        (fun el => el.type == "arrow") =
        dedupArrows (updatedElements.filter (fun el => el.type == "arrow")) [] := by
      apply List.filter_eq_self.mpr
      intro a ha
      have hmem : a ∈ updatedElements.filter (fun el => el.type == "arrow") :=
        (dedupArrows_sublist (updatedElements.filter (fun el => el.type == "arrow")) []).subset ha
      exact (List.mem_filter.mp hmem).2
    rw [h1, h2, List.nil_append]

end SnapEngine

namespace SnapEngine

/-- C6: after the dedup pass, for every unordered pair of (nonempty) box
ids at most one connector bound to that pair remains; a surviving connector
bound to a pair is the first connector of the input (in arrow order) bound
to that pair; given at least two connectors all carrying the same binding
key, exactly one connector survives; and a connector with a single-sided or
absent binding is never removed. -/
theorem dedup_unordered_pairs :
    (∀ (updated : List Elt) (a b : String), a ≠ "" → b ≠ "" →
      (((deduplicatedElements updated).1.filter (fun el => el.type == "arrow")).filter
        (pairMatchesB a b)).length ≤ 1) ∧
    (∀ (updated : List Elt) (a b : String) (e : Elt), a ≠ "" → b ≠ "" →
      e ∈ (deduplicatedElements updated).1.filter (fun el => el.type == "arrow") →
      pairMatchesB a b e = true →
      ∃ l1 l2, updated.filter (fun el => el.type == "arrow") = l1 ++ e :: l2 ∧
        ∀ x ∈ l1, pairMatchesB a b x = false) ∧
    (∀ (updated : List Elt) (k : String),
      (∀ e ∈ updated.filter (fun el => el.type == "arrow"), connKey e = some k) →
      2 ≤ (updated.filter (fun el => el.type == "arrow")).length →
      ((deduplicatedElements updated).1.filter (fun el => el.type == "arrow")).length = 1) ∧
    (∀ (updated : List Elt) (e : Elt),
      e ∈ updated.filter (fun el => el.type == "arrow") → connKey e = none →
      e ∈ (deduplicatedElements updated).1) := by
  refine ⟨?_, ?_, ?_, ?_⟩
  · intro updated a b ha hb
    rw [deduplicatedElements_arrows]
    by_cases h : (updated.filter (fun el => el.type == "arrow")).length ≤ 1
    · rw [if_pos h]
      exact le_trans (List.length_filter_le _ _) h
    · rw [if_neg h]
      have hmono := length_filter_mono (pairMatchesB a b)
        (fun e => decide (connKey e = some (connectionKey a b)))
        (dedupArrows (updated.filter (fun el => el.type == "arrow")) [])
        (fun x hx => by simp [pairMatchesB_key a b x ha hb hx])
      exact le_trans hmono
        (dedupArrows_key_count (updated.filter (fun el => el.type == "arrow")) []
          (connectionKey a b))
  · intro updated a b e ha hb he hpair
    rw [deduplicatedElements_arrows] at he
    have hkey := pairMatchesB_key a b e ha hb hpair
    by_cases h : (updated.filter (fun el => el.type == "arrow")).length ≤ 1
    · rw [if_pos h] at he
      cases harr : updated.filter (fun el => el.type == "arrow") with
      | nil => rw [harr] at he; simp at he
      | cons x rest =>
        rw [harr] at he h
        cases rest with
        | nil =>
          rcases List.mem_cons.mp he with rfl | he
          · exact ⟨[], [], rfl, by simp⟩
          · simp at he
        | cons y t => simp at h
    · rw [if_neg h] at he
      obtain ⟨l1, l2, hsplit, hfirst⟩ :=
        dedupArrows_first (updated.filter (fun el => el.type == "arrow")) [] e
          (connectionKey a b) he hkey (by simp)
      refine ⟨l1, l2, hsplit, ?_⟩
      intro x hx
      by_contra hcontra
      have hx2 : pairMatchesB a b x = true := by
        cases hp : pairMatchesB a b x
        · exact absurd hp hcontra
        · rfl
      exact hfirst x hx (pairMatchesB_key a b x ha hb hx2)
  · intro updated k hall hlen
    rw [deduplicatedElements_arrows]
    rw [if_neg (by omega)]
    cases harr : updated.filter (fun el => el.type == "arrow") with
    | nil => rw [harr] at hlen; simp at hlen
    | cons x rest =>
      rw [harr] at hall
      unfold dedupArrows
      rw [hall x (List.mem_cons_self x rest)]
      dsimp only
      rw [if_neg (by simp)]
      rw [dedupArrows_all_seen rest [k] k
        (fun e hee => hall e (List.mem_cons_of_mem x hee))
        (List.mem_cons_self k [])]
      rfl
  · intro updated e he hkey
    unfold deduplicatedElements
    dsimp only
    by_cases h : (updated.filter (fun el => el.type == "arrow")).length ≤ 1
    · rw [if_pos h]
      exact List.mem_of_mem_filter he
    · rw [if_neg h]
      dsimp only
      exact List.mem_append_right _
        (dedupArrows_none_kept (updated.filter (fun el => el.type == "arrow")) [] e he hkey)

/-- Witness for `dedup_unordered_pairs`: two connectors bound to the same
pair collapse to exactly one. -/
theorem dedup_unordered_pairs_witness :
    (((deduplicatedElements [dupArrow1, dupArrow2]).1).filter
      (fun el => el.type == "arrow")).length = 1 :=
  dedup_unordered_pairs.2.2.1 [dupArrow1, dupArrow2] (connectionKey "a" "b")
    (by decide) (by decide)

end SnapEngine

namespace SnapEngine

/-- C8: the snapping/dedup effect is idempotent on a stable collection:
when every arrow the effect can process is already within the positioning
tolerance and the arrows are already deduplicated, the effect performs no
state update and returns the collection unchanged — in particular no
element and no version changes. -/
theorem snap_effect_idempotent (els : List Elt)
    (h1 : ∀ e ∈ els, ∀ info,
      snapTarget (els.filter (fun el => el.type == "rectangle")) e = some info →
      ¬ needsUpdate e info)
    (h2 : dedupArrows (els.filter (fun el => el.type == "arrow")) [] =
      els.filter (fun el => el.type == "arrow")) :
    runSnapEffect els = (els, false) := by
  have hsnap : ∀ e ∈ els,
      snapOne (els.filter (fun el => el.type == "rectangle")) e = (e, false) := by
    intro e he
    unfold snapOne
    cases hst : snapTarget (els.filter (fun el => el.type == "rectangle")) e with
    | none => rfl
    | some info =>
      dsimp only
      rw [if_neg (h1 e he info hst)]
  unfold runSnapEffect
  dsimp only
  by_cases h0 : els.length = 0
  · rw [if_pos h0]
  · rw [if_neg h0]
    by_cases harr : (els.filter (fun el => el.type == "arrow")).length = 0 ∨
        (els.filter (fun el => el.type == "rectangle")).length = 0
    · rw [if_pos harr]
    · rw [if_neg harr]
      rw [List.map_congr_left hsnap]
      have hupd : (els.map (fun e => (e, false))).map Prod.fst = els := by
        rw [List.map_map]
        have hid : ∀ a ∈ els, (Prod.fst ∘ fun e => (e, false)) a = id a := fun a _ => rfl
        rw [List.map_congr_left hid, List.map_id]
      have hany : (els.map (fun e => (e, false))).any Prod.snd = false := by
        rw [List.any_eq_false]
        intro x hx
        obtain ⟨e, _, rfl⟩ := List.mem_map.mp hx
        simp
      rw [hupd, hany]
      have hdedup2 : (deduplicatedElements els).2 = false := by
        unfold deduplicatedElements
        dsimp only
        by_cases hd : (els.filter (fun el => el.type == "arrow")).length ≤ 1
        · rw [if_pos hd]
        · rw [if_neg hd]
          dsimp only
          rw [h2]
          simp
      rw [hdedup2]
      simp

/-- Witness for `snap_effect_idempotent`: the two scenario boxes with an
exactly snapped arrow pass through the effect unchanged. -/
theorem snap_effect_idempotent_witness :
    runSnapEffect [boxA, boxB, snappedArrow] = ([boxA, boxB, snappedArrow], false) := by
  apply snap_effect_idempotent
  · intro e he info hst
    have he3 : e = boxA ∨ e = boxB ∨ e = snappedArrow := by
      rcases List.mem_cons.mp he with rfl | he
      · exact Or.inl rfl
      · rcases List.mem_cons.mp he with rfl | he
        · exact Or.inr (Or.inl rfl)
        · rcases List.mem_cons.mp he with rfl | he
          · exact Or.inr (Or.inr rfl)
          · simp at he
    rcases he3 with rfl | rfl | rfl
    · rw [show snapTarget ([boxA, boxB, snappedArrow].filter
          (fun el => el.type == "rectangle")) boxA = none from by decide] at hst
      exact absurd hst (by simp)
    · rw [show snapTarget ([boxA, boxB, snappedArrow].filter
          (fun el => el.type == "rectangle")) boxB = none from by decide] at hst
      exact absurd hst (by simp)
    · have hfilter : [boxA, boxB, snappedArrow].filter
          (fun el => el.type == "rectangle") = [boxA, boxB] := by decide
      rw [hfilter] at hst
      have hval : snapTarget [boxA, boxB] snappedArrow =
          some { startRect := boxA, endRect := boxB, newArrowX := 100, newArrowY := 50,
                 newEndDx := 200, newEndDy := 0, oldEndDx := 200, oldEndDy := 0 } := by
        norm_num [snapTarget, findClosestRectangle, minFold, minFoldGo,
          chooseShortestEdges, getAllEdgePoints, List.product, dist2, rectCenter,
          boxA, boxB, snappedArrow, show ("B" : String) ≠ "A" from by decide]
      rw [hval] at hst
      have hinfo := Option.some.inj hst
      rw [← hinfo]
      norm_num [needsUpdate, snappedArrow]
  · decide

end SnapEngine

namespace SnapEngine

/-- C7 counterexample to the claim as stated: the snapping pass gives the
arrow a start binding to box A and an end binding to box B, yet leaves the
boxes untouched — in particular A carries no back-reference to the
connector, so binding symmetry fails after this bind operation. -/
theorem snap_binding_no_backref_counterexample :
    runSnapEffect [boxA, boxB, unsnappedArrow] = ([boxA, boxB, snappedArrowResult], true) ∧
    snappedArrowResult.startBinding = some { elementId := "A", focus := 0, gap := 4 } ∧
    boxA.id = "A" ∧
    boxA.boundElements = none := by
  refine ⟨?_, rfl, rfl, rfl⟩
  have hrects : [boxA, boxB, unsnappedArrow].filter (fun el => el.type == "rectangle") =
      [boxA, boxB] := by decide
  have harrs : [boxA, boxB, unsnappedArrow].filter (fun el => el.type == "arrow") =
      [unsnappedArrow] := by decide
  have hsnapA : snapOne [boxA, boxB] boxA = (boxA, false) := by decide
  have hsnapB : snapOne [boxA, boxB] boxB = (boxB, false) := by decide
  have hst : snapTarget [boxA, boxB] unsnappedArrow =
      some { startRect := boxA, endRect := boxB, newArrowX := 100, newArrowY := 50,
             newEndDx := 200, newEndDy := 0, oldEndDx := 180, oldEndDy := 0 } := by
    norm_num [snapTarget, findClosestRectangle, minFold, minFoldGo,
      chooseShortestEdges, getAllEdgePoints, List.product, dist2, rectCenter,
      boxA, boxB, unsnappedArrow, show ("B" : String) ≠ "A" from by decide]
  have hneed : needsUpdate unsnappedArrow
      { startRect := boxA, endRect := boxB, newArrowX := 100, newArrowY := 50,
        newEndDx := 200, newEndDy := 0, oldEndDx := 180, oldEndDy := 0 } := by
    norm_num [needsUpdate, unsnappedArrow]
  have hsnapArrow : snapOne [boxA, boxB] unsnappedArrow = (snappedArrowResult, true) := by
    unfold snapOne
    rw [hst]
    dsimp only
    rw [if_pos hneed]
    norm_num [calculateBindingFocus, clampFocus, jsOrNat, boxA, boxB,
      unsnappedArrow, snappedArrowResult, min_def, max_def]
  have hded : deduplicatedElements [boxA, boxB, snappedArrowResult] =
      ([boxA, boxB, snappedArrowResult], false) := by decide
  unfold runSnapEffect
  dsimp only
  rw [if_neg (by decide : ¬ ([boxA, boxB, unsnappedArrow] : List Elt).length = 0)]
  rw [hrects, harrs]
  rw [if_neg (by decide :
    ¬ (([unsnappedArrow] : List Elt).length = 0 ∨ ([boxA, boxB] : List Elt).length = 0))]
  rw [show List.map (snapOne [boxA, boxB]) [boxA, boxB, unsnappedArrow] =
      [(boxA, false), (boxB, false), (snappedArrowResult, true)] by
    rw [List.map_cons, List.map_cons, List.map_cons, List.map_nil,
      hsnapA, hsnapB, hsnapArrow]]
  rw [show List.map Prod.fst [((boxA : Elt), false), (boxB, false), (snappedArrowResult, true)] =
      [boxA, boxB, snappedArrowResult] from rfl]
  rw [hded]
  rfl

end SnapEngine

namespace AgentTools

/-- An arrow spec yields an arrow-typed element: every branch of the
auto-binding pass preserves the `type` field. -/
theorem addElementNew_arrow_type (timestamp uniqueIndex : Nat) (current : List Elt)
    (spec : ElementSpec) (hty : spec.type = some "arrow") :
    (addElementNew timestamp uniqueIndex current spec).type = "arrow" := by
  unfold addElementNew
  dsimp only
  rw [hty]
  rw [show jsOrStr (some "arrow") "rectangle" = "arrow" from by decide]
  rw [if_pos rfl]
  repeat' split
  all_goals rfl

/-- After the back-reference update, a start-binding target lists the new
connector in its `boundElements`. -/
theorem updateBoundElements_start (newElement t : Elt) (b : Binding)
    (hsb : newElement.startBinding = some b) (hid : b.elementId = t.id) :
    ∃ br ∈ (updateBoundElements newElement t).boundElements.getD [],
      br.id = newElement.id := by
  unfold updateBoundElements
  rw [hsb]
  dsimp only
  have htrue : (b.elementId == t.id) = true := beq_iff_eq.mpr hid
  rw [htrue]
  rw [if_neg (by simp)]
  by_cases halready :
      (t.boundElements.getD []).any (fun bound => bound.id == newElement.id) = true
  · rw [if_pos halready]
    obtain ⟨br, hbr, hbid⟩ := List.any_eq_true.mp halready
    exact ⟨br, hbr, beq_iff_eq.mp hbid⟩
  · rw [if_neg halready]
    refine ⟨⟨newElement.id, "arrow"⟩, ?_, rfl⟩
    dsimp only
    simp

/-- After the back-reference update, an end-binding target lists the new
connector in its `boundElements`. -/
theorem updateBoundElements_end (newElement t : Elt) (b : Binding)
    (heb : newElement.endBinding = some b) (hid : b.elementId = t.id) :
    ∃ br ∈ (updateBoundElements newElement t).boundElements.getD [],
      br.id = newElement.id := by
  unfold updateBoundElements
  rw [heb]
  dsimp only
  have htrue : (b.elementId == t.id) = true := beq_iff_eq.mpr hid
  rw [htrue]
  rw [if_neg (by simp)]
  by_cases halready :
      (t.boundElements.getD []).any (fun bound => bound.id == newElement.id) = true
  · rw [if_pos halready]
    obtain ⟨br, hbr, hbid⟩ := List.any_eq_true.mp halready
    exact ⟨br, hbr, beq_iff_eq.mp hbid⟩
  · rw [if_neg halready]
    refine ⟨⟨newElement.id, "arrow"⟩, ?_, rfl⟩
    dsimp only
    simp

/-- C7 (amended): after `addElement` completes, every binding endpoint of
the newly added connector whose target id names an element of the prior
collection yields a `boundElements` back-reference to the connector on that
element in the resulting collection; the snapping pass, by contrast,
maintains no back-references — it maps every non-arrow element to itself
unchanged. -/
theorem binding_backref_amended (timestamp uniqueIndex : Nat) (current : List Elt)
    (spec : ElementSpec) (hty : spec.type = some "arrow") :
    (∀ b, (addElementNew timestamp uniqueIndex current spec).startBinding = some b →
      ∀ t ∈ current, b.elementId = t.id →
        updateBoundElements (addElementNew timestamp uniqueIndex current spec) t ∈
          addElement timestamp uniqueIndex current spec ∧
        ∃ br ∈ (updateBoundElements (addElementNew timestamp uniqueIndex current spec)
            t).boundElements.getD [],
          br.id = (addElementNew timestamp uniqueIndex current spec).id) ∧
    (∀ b, (addElementNew timestamp uniqueIndex current spec).endBinding = some b →
      ∀ t ∈ current, b.elementId = t.id →
        updateBoundElements (addElementNew timestamp uniqueIndex current spec) t ∈
          addElement timestamp uniqueIndex current spec ∧
        ∃ br ∈ (updateBoundElements (addElementNew timestamp uniqueIndex current spec)
            t).boundElements.getD [],
          br.id = (addElementNew timestamp uniqueIndex current spec).id) ∧
    (∀ (rectangles : List Elt) (e : Elt), e.type ≠ "arrow" →
      SnapEngine.snapOne rectangles e = (e, false)) := by
  refine ⟨?_, ?_, ?_⟩
  · intro b hsb t ht hid
    have hcond : (addElementNew timestamp uniqueIndex current spec).type = "arrow" ∧
        ((addElementNew timestamp uniqueIndex current spec).startBinding.isSome ∨
          (addElementNew timestamp uniqueIndex current spec).endBinding.isSome) :=
      ⟨addElementNew_arrow_type timestamp uniqueIndex current spec hty,
        Or.inl (by rw [hsb]; rfl)⟩
    constructor
    · unfold addElement
      dsimp only
      rw [if_pos hcond]
      exact List.mem_append_left _ (List.mem_map_of_mem _ ht)
    · exact updateBoundElements_start _ t b hsb hid
  · intro b heb t ht hid
    have hcond : (addElementNew timestamp uniqueIndex current spec).type = "arrow" ∧
        ((addElementNew timestamp uniqueIndex current spec).startBinding.isSome ∨
          (addElementNew timestamp uniqueIndex current spec).endBinding.isSome) :=
      ⟨addElementNew_arrow_type timestamp uniqueIndex current spec hty,
        Or.inr (by rw [heb]; rfl)⟩
    constructor
    · unfold addElement
      dsimp only
      rw [if_pos hcond]
      exact List.mem_append_left _ (List.mem_map_of_mem _ ht)
    · exact updateBoundElements_end _ t b heb hid
  · intro rectangles e he
    unfold SnapEngine.snapOne
    rw [show SnapEngine.snapTarget rectangles e = none from by
      unfold SnapEngine.snapTarget
      rw [if_neg he]]

/-- Witness for `binding_backref_amended`: adding an arrow explicitly bound
to a table leaves the table holding a back-reference to the arrow. -/
theorem binding_backref_amended_witness :
    updateBoundElements (addElementNew 1 2 [tbg] arrowSpec9) tbg ∈
      addElement 1 2 [tbg] arrowSpec9 ∧
    ∃ br ∈ (updateBoundElements (addElementNew 1 2 [tbg] arrowSpec9)
        tbg).boundElements.getD [],
      br.id = (addElementNew 1 2 [tbg] arrowSpec9).id :=
  (binding_backref_amended 1 2 [tbg] arrowSpec9 rfl).1
    { elementId := "t_bg", focus := 0, gap := 4 } (by decide) tbg (by decide) (by decide)

end AgentTools

namespace AgentTools

/-- A processed spec is non-null exactly when its type is recognized. -/
theorem processSpec_isSome (timestamp uniqueIndex index : Nat) (elementData : ElementSpec) :
    (processSpec timestamp uniqueIndex index elementData).isSome =
      recognizedType elementData := by
  unfold processSpec recognizedType
  cases elementData.type with
  | none => rfl
  | some t =>
    dsimp only
    split_ifs with h1 h2 h3 h4 <;> simp_all [beq_iff_eq]

/-- Length of the processed batch: one element per recognized spec,
whatever the enumeration offset. -/
theorem enumFrom_filterMap_length (timestamp uniqueIndex : Nat) :
    ∀ (specs : List ElementSpec) (n : Nat),
      ((List.enumFrom n specs).filterMap
        (fun p => processSpec timestamp uniqueIndex p.1 p.2)).length =
      (specs.filter recognizedType).length := by
  intro specs
  induction specs with
  | nil => intro n; rfl
  | cons d rest ih =>
    intro n
    rw [show List.enumFrom n (d :: rest) = (n, d) :: List.enumFrom (n + 1) rest from rfl]
    cases hp : processSpec timestamp uniqueIndex n d with
    | none =>
      have hcons : List.filterMap (fun p => processSpec timestamp uniqueIndex p.1 p.2)
          ((n, d) :: List.enumFrom (n + 1) rest) =
          List.filterMap (fun p => processSpec timestamp uniqueIndex p.1 p.2)
            (List.enumFrom (n + 1) rest) := by
        rw [List.filterMap_cons]
        dsimp only
        rw [hp]
      rw [hcons]
      have hrec : recognizedType d = false := by
        rw [← processSpec_isSome timestamp uniqueIndex n d, hp]
        rfl
      rw [List.filter_cons_of_neg (by simp [hrec])]
      exact ih (n + 1)
    | some e =>
      have hcons : List.filterMap (fun p => processSpec timestamp uniqueIndex p.1 p.2)
          ((n, d) :: List.enumFrom (n + 1) rest) =
          e :: List.filterMap (fun p => processSpec timestamp uniqueIndex p.1 p.2)
            (List.enumFrom (n + 1) rest) := by
        rw [List.filterMap_cons]
        dsimp only
        rw [hp]
      rw [hcons]
      have hrec : recognizedType d = true := by
        rw [← processSpec_isSome timestamp uniqueIndex n d, hp]
        rfl
      rw [List.filter_cons_of_pos (by simp [hrec])]
      simp only [List.length_cons]
      rw [ih (n + 1)]

/-- C9 (amended): for a non-empty batch, `addMultipleElements` appends the
processed elements to the prior collection, leaving the pre-existing
elements unchanged as a prefix; each spec with a recognized type
contributes exactly one element while a spec with an unrecognized or
missing type is dropped, so the resulting size is the prior size plus the
number of recognized specs (not the number of specs). -/
theorem addMultiple_batch (timestamp uniqueIndex : Nat) (current : List Elt)
    (specs : List ElementSpec) (h : specs ≠ []) :
    addMultipleElements timestamp uniqueIndex current specs =
      current ++ specs.enum.filterMap
        (fun p => processSpec timestamp uniqueIndex p.1 p.2) ∧
    (addMultipleElements timestamp uniqueIndex current specs).length =
      current.length + (specs.filter recognizedType).length := by
  have hne : ¬ specs.length = 0 := by
    cases specs with
    | nil => exact absurd rfl h
    | cons a t => simp
  constructor
  · unfold addMultipleElements
    rw [if_neg hne]
  · unfold addMultipleElements
    rw [if_neg hne]
    dsimp only
    rw [List.length_append]
    congr 1
    exact enumFrom_filterMap_length timestamp uniqueIndex specs 0

/-- Witness for `addMultiple_batch` on a single rectangle spec. -/
theorem addMultiple_batch_witness :
    addMultipleElements 3 4 [blankElt] [specRect] =
      [blankElt] ++ ([specRect] : List ElementSpec).enum.filterMap
        (fun p => processSpec 3 4 p.1 p.2) ∧
    (addMultipleElements 3 4 [blankElt] [specRect]).length =
      ([blankElt] : List Elt).length +
        (([specRect] : List ElementSpec).filter recognizedType).length :=
  addMultiple_batch 3 4 [blankElt] [specRect] (by decide)

/-- C9 counterexample to the claim as stated: a non-empty batch holding one
spec of unrecognized type produces no element at all — the resulting size
is the prior size, not the prior size plus the batch size. -/
theorem addMultiple_drop_counterexample :
    ([specEllipse] : List ElementSpec).length = 1 ∧
    (addMultipleElements 0 0 [] [specEllipse]).length = 0 := by
  refine ⟨rfl, ?_⟩
  decide

/-- A successful table lookup returns a member of the collection carrying
the `_bg` marker, of rectangle type, whose bounds contain the point. -/
theorem findTableAtCoordinates_some (current : List Elt) (x y : ℚ) (table : Elt)
    (h : findTableAtCoordinates current x y = some table) :
    table ∈ current ∧ strEndsWith table.id "_bg" = true ∧ table.type = "rectangle" ∧
    table.x ≤ x ∧ x ≤ table.x + table.width ∧ table.y ≤ y ∧
    y ≤ table.y + table.height := by
  unfold findTableAtCoordinates at h
  dsimp only at h
  have hmem := List.mem_of_find?_eq_some h
  have hp := List.find?_some h
  obtain ⟨hmem2, hflt⟩ := List.mem_filter.mp hmem
  simp only [Bool.and_eq_true, beq_iff_eq, decide_eq_true_eq] at hflt hp
  exact ⟨hmem2, hflt.1, hflt.2, hp.1.1.1, hp.1.1.2, hp.1.2, hp.2⟩

/-- When no `_bg` rectangle of the collection contains the point, the table
lookup fails. -/
theorem findTableAtCoordinates_none (current : List Elt) (x y : ℚ)
    (h : ∀ t ∈ current, strEndsWith t.id "_bg" = true → t.type = "rectangle" →
      ¬ (t.x ≤ x ∧ x ≤ t.x + t.width ∧ t.y ≤ y ∧ y ≤ t.y + t.height)) :
    findTableAtCoordinates current x y = none := by
  unfold findTableAtCoordinates
  dsimp only
  rw [List.find?_eq_none]
  intro t ht
  obtain ⟨hmem2, hflt⟩ := List.mem_filter.mp ht
  simp only [Bool.and_eq_true, beq_iff_eq] at hflt
  have hnot := h t hmem2 hflt.1 hflt.2
  simp only [Bool.and_eq_true, decide_eq_true_eq]
  tauto

/-- The start binding produced by the arrow auto-binding pass is exactly the
(optional) table found at the arrow start point. -/
theorem addElementNew_auto_start (timestamp uniqueIndex : Nat) (current : List Elt)
    (spec : ElementSpec) (hty : spec.type = some "arrow")
    (hsb : spec.startBinding = none) :
    (addElementNew timestamp uniqueIndex current spec).startBinding =
      (findTableAtCoordinates current (arrowEndpoints current spec).1.1
        (arrowEndpoints current spec).1.2).map
        (fun sourceTable =>
          { elementId := sourceTable.id,
            focus := calculateBindingFocusAt sourceTable (arrowEndpoints current spec).2.1
              (arrowEndpoints current spec).2.2,
            gap := 4 }) := by
  unfold addElementNew arrowEndpoints
  dsimp only
  rw [hty, hsb]
  rw [show jsOrStr (some "arrow") "rectangle" = "arrow" from by decide]
  rw [if_pos rfl]
  repeat' split
  all_goals simp_all

/-- The end binding produced by the arrow auto-binding pass is exactly the
(optional) table found at the arrow end point. -/
theorem addElementNew_auto_end (timestamp uniqueIndex : Nat) (current : List Elt)
    (spec : ElementSpec) (hty : spec.type = some "arrow")
    (heb : spec.endBinding = none) :
    (addElementNew timestamp uniqueIndex current spec).endBinding =
      (findTableAtCoordinates current (arrowEndpoints current spec).2.1
        (arrowEndpoints current spec).2.2).map
        (fun targetTable =>
          { elementId := targetTable.id,
            focus := calculateBindingFocusAt targetTable (arrowEndpoints current spec).1.1
              (arrowEndpoints current spec).1.2,
            gap := 4 }) := by
  unfold addElementNew arrowEndpoints
  dsimp only
  rw [hty, heb]
  rw [show jsOrStr (some "arrow") "rectangle" = "arrow" from by decide]
  rw [if_pos rfl]
  repeat' split
  all_goals simp_all

/-- C10: automatic binding of a newly added arrow only ever targets
table-background rectangles: an auto-created start (or end) binding points
at an element of the prior collection whose id ends in `_bg`, of rectangle
type, containing the corresponding arrow endpoint — so a rectangle whose id
lacks the `_bg` marker is never targeted, even when it contains the
endpoint; and when no `_bg` rectangle contains the endpoint, no binding is
created for it. -/
theorem auto_binding_only_tables (timestamp uniqueIndex : Nat) (current : List Elt)
    (spec : ElementSpec) (hty : spec.type = some "arrow")
    (hsb : spec.startBinding = none) (heb : spec.endBinding = none) :
    (∀ b, (addElementNew timestamp uniqueIndex current spec).startBinding = some b →
      ∃ table, table ∈ current ∧ b.elementId = table.id ∧
        strEndsWith table.id "_bg" = true ∧ table.type = "rectangle" ∧
        table.x ≤ (arrowEndpoints current spec).1.1 ∧
        (arrowEndpoints current spec).1.1 ≤ table.x + table.width ∧
        table.y ≤ (arrowEndpoints current spec).1.2 ∧
        (arrowEndpoints current spec).1.2 ≤ table.y + table.height) ∧
    ((∀ t ∈ current, strEndsWith t.id "_bg" = true → t.type = "rectangle" →
      ¬ (t.x ≤ (arrowEndpoints current spec).1.1 ∧
        (arrowEndpoints current spec).1.1 ≤ t.x + t.width ∧
        t.y ≤ (arrowEndpoints current spec).1.2 ∧
        (arrowEndpoints current spec).1.2 ≤ t.y + t.height)) →
      (addElementNew timestamp uniqueIndex current spec).startBinding = none) ∧
    (∀ b, (addElementNew timestamp uniqueIndex current spec).endBinding = some b →
      ∃ table, table ∈ current ∧ b.elementId = table.id ∧
        strEndsWith table.id "_bg" = true ∧ table.type = "rectangle" ∧
        table.x ≤ (arrowEndpoints current spec).2.1 ∧
        (arrowEndpoints current spec).2.1 ≤ table.x + table.width ∧
        table.y ≤ (arrowEndpoints current spec).2.2 ∧
        (arrowEndpoints current spec).2.2 ≤ table.y + table.height) ∧
    ((∀ t ∈ current, strEndsWith t.id "_bg" = true → t.type = "rectangle" →
      ¬ (t.x ≤ (arrowEndpoints current spec).2.1 ∧
        (arrowEndpoints current spec).2.1 ≤ t.x + t.width ∧
        t.y ≤ (arrowEndpoints current spec).2.2 ∧
        (arrowEndpoints current spec).2.2 ≤ t.y + t.height)) →
      (addElementNew timestamp uniqueIndex current spec).endBinding = none) := by
  refine ⟨?_, ?_, ?_, ?_⟩
  · intro b hb
    rw [addElementNew_auto_start timestamp uniqueIndex current spec hty hsb] at hb
    cases hft : findTableAtCoordinates current (arrowEndpoints current spec).1.1
        (arrowEndpoints current spec).1.2 with
    | none => rw [hft] at hb; simp at hb
    | some table =>
      rw [hft] at hb
      obtain ⟨h1, h2, h3, h4, h5, h6, h7⟩ :=
        findTableAtCoordinates_some current _ _ table hft
      refine ⟨table, h1, ?_, h2, h3, h4, h5, h6, h7⟩
      have := Option.some.inj hb
      rw [← this]
  · intro hnone
    rw [addElementNew_auto_start timestamp uniqueIndex current spec hty hsb]
    rw [findTableAtCoordinates_none current _ _ hnone]
    rfl
  · intro b hb
    rw [addElementNew_auto_end timestamp uniqueIndex current spec hty heb] at hb
    cases hft : findTableAtCoordinates current (arrowEndpoints current spec).2.1
        (arrowEndpoints current spec).2.2 with
    | none => rw [hft] at hb; simp at hb
    | some table =>
      rw [hft] at hb
      obtain ⟨h1, h2, h3, h4, h5, h6, h7⟩ :=
        findTableAtCoordinates_some current _ _ table hft
      refine ⟨table, h1, ?_, h2, h3, h4, h5, h6, h7⟩
      have := Option.some.inj hb
      rw [← this]
  · intro hnone
    rw [addElementNew_auto_end timestamp uniqueIndex current spec hty heb]
    rw [findTableAtCoordinates_none current _ _ hnone]
    rfl

/-- Witness for `auto_binding_only_tables`: an arrow starting inside a
plain (non-table) rectangle gets no start binding. -/
theorem auto_binding_only_tables_witness :
    (addElementNew 5 6 [plainRect] probeSpec).startBinding = none :=
  (auto_binding_only_tables 5 6 [plainRect] probeSpec rfl rfl rfl).2.1 (by decide)

end AgentTools
